import Mathlib

/-!
Verification development for the Kiro-Gateway credential pool and proxy core.

The definitions below are a shallow embedding of the Rust sources:
  * `src-tauri/src/kiro/token_manager.rs`   (credential pool manager)
  * `src-tauri/src/kiro/provider.rs`        (streaming retry engine)
  * `src-tauri/src/kiro/machine_id.rs`      (device fingerprint)
  * `src-tauri/src/kiro/model/credentials.rs` (persistence data model)
  * `src-tauri/src/anthropic/handlers.rs`   (non-stream response finalization)

Rust `u64`/`u32` values are modelled as `Nat` (no arithmetic here comes close
to overflow: ids and failure counters only grow by 1), `f64` values as `ℚ`
(all concrete values used in theorems are dyadic rationals on which the IEEE
double operations performed by the source are exact), timestamps as `Int`
epoch seconds with RFC3339 parsing/formatting abstracted into an environment,
and HTTP I/O as environment-supplied oracles.  Locks are elided: the embedding
is the sequential semantics of the code.
-/

deriving instance DecidableEq for Except

namespace KiroGateway

/-! ### Character-list string helpers

Lean's built-in `String.endsWith`/substring search do not reduce in the
kernel, so the Rust `str::contains` / `str::ends_with` used by the source are
embedded as executable character-list functions (the source only applies them
to ASCII-compatible data, where byte and char indexing agree). -/

/-- `leadsWithCL s pat`: `pat` is an initial segment of `s`. -/
def leadsWithCL : List Char → List Char → Bool
  | _, [] => true
  | [], _ :: _ => false
  | a :: s, b :: p => a == b && leadsWithCL s p

/-- `hasInfixCL pat s`: `pat` occurs contiguously inside `s`
(Rust `str::contains`). -/
def hasInfixCL (pat : List Char) : List Char → Bool
  | [] => leadsWithCL [] pat
  | c :: t => leadsWithCL (c :: t) pat || hasInfixCL pat t

/-- Rust `str::contains` on strings. -/
def strContains (s pat : String) : Bool :=
  hasInfixCL pat.data s.data

/-- Rust `str::ends_with` on strings. -/
def strTrailsWith (s pat : String) : Bool :=
  leadsWithCL s.data.reverse pat.data.reverse

/-- ASCII lowercasing of one character (all `auth_method` values that the
source compares after `to_lowercase` are ASCII). -/
def charLower (c : Char) : Char :=
  if 'A' ≤ c ∧ c ≤ 'Z' then Char.ofNat (c.toNat + 32) else c

/-- Rust `str::to_lowercase` (ASCII fragment used by the source). -/
def strLower (s : String) : String :=
  ⟨s.data.map charLower⟩

/-! ### Credential data model (`kiro/model/credentials.rs`) -/

/-- `KiroCredentials` — one OAuth identity, mirroring the Rust struct field
for field.  `u64`/`u32` become `Nat`, `f64` becomes `ℚ`. -/
structure KiroCredentials where
  id : Option Nat
  access_token : Option String
  refresh_token : Option String
  profile_arn : Option String
  expires_at : Option String
  auth_method : Option String
  client_id : Option String
  client_secret : Option String
  priority : Nat
  email : Option String
  subscription_title : Option String
  current_usage : Option ℚ
  usage_limit : Option ℚ
  remaining : Option ℚ
  next_reset_at : Option ℚ
  status : String
  group_id : String
deriving Repr, DecidableEq

/-- Rust `Default` for `KiroCredentials` (serde defaults: `status = "normal"`,
`group_id = "default"`, `priority = 0`, every other field absent). -/
def KiroCredentials.default : KiroCredentials :=
  { id := none, access_token := none, refresh_token := none, profile_arn := none
  , expires_at := none, auth_method := none, client_id := none, client_secret := none
  , priority := 0, email := none, subscription_title := none
  , current_usage := none, usage_limit := none, remaining := none, next_reset_at := none
  , status := "normal", group_id := "default" }

/-! ### Pool entries (`token_manager.rs`) -/

/-- Why an entry is disabled (`enum DisabledReason`). -/
inductive DisabledReason where
  | Manual
  | TooManyFailures
  | Suspended
deriving Repr, DecidableEq

/-- One pool slot (`struct CredentialEntry`). -/
structure CredentialEntry where
  id : Nat
  credentials : KiroCredentials
  failure_count : Nat
  disabled : Bool
  disabled_reason : Option DisabledReason
deriving Repr, DecidableEq

/-- `CredentialEntry::is_available`: not disabled and status is not
`"invalid"`. -/
def CredentialEntry.is_available (e : CredentialEntry) : Bool :=
  !e.disabled && e.credentials.status != "invalid"

/-- `MAX_FAILURES_PER_CREDENTIAL` -/
def MAX_FAILURES_PER_CREDENTIAL : Nat := 3

/-- `is_credential_invalid_error` — the credential-invalidation predicate on
error text (`token_manager.rs`). -/
def is_credential_invalid_error (m : String) : Bool :=
  (strContains m "TEMPORARILY_SUSPENDED" ||
   strContains m "temporarily is suspended" ||
   strContains m "temporarily suspended") ||
  (strContains m "凭证已过期或无效" ||
   strContains m "OAuth 凭证已过期或无效" ||
   strContains m "IdC 凭证已过期或无效") ||
  (strContains m "401" && (strContains m "Unauthorized" || strContains m "认证失败")) ||
  (strContains m "403" && strContains m "Forbidden" &&
   (strContains m "User ID" || strContains m "revoked" ||
    strContains m "invalid" || strContains m "locked"))

/-! ### Manager state

`MultiTokenManager`'s mutable state: the entry vector, the current selection,
and the active group, together with the two immutable persistence facts
(`is_multiple_format` and whether `credentials_path` is set; the path itself
is irrelevant to behaviour, only its presence matters). -/

structure ManagerState where
  entries : List CredentialEntry
  current_id : Nat
  active_group_id : Option String
  is_multiple_format : Bool
  has_credentials_path : Bool
deriving Repr, DecidableEq

/-- Group-filter used throughout `token_manager.rs`: no active group means
every credential qualifies. -/
def in_group (ag : Option String) (c : KiroCredentials) : Bool :=
  match ag with
  | none => true
  | some g => c.group_id == g

/-- `entries.iter_mut().find(|e| e.id == id)` followed by a field update:
rewrite the first entry with the given id, leave everything else alone. -/
def updateFirst (l : List CredentialEntry) (id : Nat)
    (f : CredentialEntry → CredentialEntry) : List CredentialEntry :=
  match l with
  | [] => []
  | e :: es => if e.id == id then f e :: es else e :: updateFirst es id f

/-- `iter().filter(...).min_by_key(|e| e.id)`: first entry carrying the
minimal id. -/
def minById (l : List CredentialEntry) : Option CredentialEntry :=
  l.foldl (fun acc e =>
    match acc with
    | none => some e
    | some b => if e.id < b.id then some e else acc) none

/-- `entries.iter().find(|e| e.id == id)`. -/
def findEntry (s : ManagerState) (id : Nat) : Option CredentialEntry :=
  s.entries.find? (fun e => e.id == id)

/-! ### Environment

Time, RFC3339 conversion, SHA-256, and the refresh HTTP endpoints are outside
the pool logic; they enter the embedding as oracles.  `persist_ok` decides
whether a `std::fs::write` of the credentials file would succeed. -/

/-- Body of a successful token-refresh HTTP response (`RefreshResponse` /
`IdcRefreshResponse`; the IdC form never carries a profile ARN). -/
structure RefreshHttpResponse where
  access_token : String
  refresh_token : Option String
  profile_arn : Option String
  expires_in : Option Int
deriving Repr, DecidableEq

structure Env where
  /-- `DateTime::parse_from_rfc3339` to epoch seconds (`none` = parse error). -/
  parse_rfc3339 : String → Option Int
  /-- `Utc::now()` in epoch seconds. -/
  now : Int
  /-- `DateTime::to_rfc3339` from epoch seconds. -/
  to_rfc3339 : Int → String
  /-- lowercase-hex SHA-256 (`machine_id::sha256_hex`). -/
  sha256_hex : String → String
  /-- outcome of `POST .../refreshToken` (social). -/
  refresh_social_http : KiroCredentials → Except String RefreshHttpResponse
  /-- outcome of `POST oidc.../token` (idc / builder-id). -/
  refresh_idc_http : KiroCredentials → Except String RefreshHttpResponse
  /-- whether writing the credentials file succeeds. -/
  persist_ok : Bool

/-! ### Token expiry checks (`token_manager.rs`, top of file) -/

/-- `is_token_expiring_within`: `expires <= now + minutes`, `none` when
`expires_at` is absent or unparsable. -/
def is_token_expiring_within (env : Env) (c : KiroCredentials) (minutes : Int) :
    Option Bool :=
  (c.expires_at.bind env.parse_rfc3339).map (fun t => t ≤ env.now + minutes * 60)

/-- `is_token_expired`: within 5 minutes, defaulting to `true`. -/
def is_token_expired (env : Env) (c : KiroCredentials) : Bool :=
  (is_token_expiring_within env c 5).getD true

/-- `is_token_expiring_soon`: within 10 minutes, defaulting to `false`. -/
def is_token_expiring_soon (env : Env) (c : KiroCredentials) : Bool :=
  (is_token_expiring_within env c 10).getD false

/-- `validate_refresh_token`: present, non-empty, at least 100 chars and not
truncated with an ellipsis. -/
def validate_refresh_token (c : KiroCredentials) : Except String Unit :=
  match c.refresh_token with
  | none => .error "缺少 refreshToken"
  | some rt =>
    if rt.length == 0 then .error "refreshToken 为空"
    else if rt.length < 100 || strTrailsWith rt "..." || strContains rt "..." then
      .error "refreshToken 已被截断"
    else .ok ()

/-- `machine_id::generate_from_credentials`: SHA-256 of
`"KotlinNativeAPI/" ++ refresh_token`, `none` without a non-empty refresh
token. -/
def generate_from_credentials (env : Env) (c : KiroCredentials) : Option String :=
  match c.refresh_token with
  | some rt => if rt.length == 0 then none else
      some (env.sha256_hex ("KotlinNativeAPI/" ++ rt))
  | none => none

/-- Apply a refresh HTTP response to a credential the way
`refresh_social_token` / `refresh_idc_token` build `new_credentials`:
only `access_token`, optionally `refresh_token` (both), `profile_arn`
(social only) and `expires_at` change. -/
def applyRefreshResponse (env : Env) (c : KiroCredentials)
    (r : RefreshHttpResponse) (isSocial : Bool) : KiroCredentials :=
  { c with
    access_token := some r.access_token
    refresh_token := match r.refresh_token with
      | some nrt => some nrt
      | none => c.refresh_token
    profile_arn := if isSocial then
        match r.profile_arn with
        | some pa => some pa
        | none => c.profile_arn
      else c.profile_arn
    expires_at := match r.expires_in with
      | some ei => some (env.to_rfc3339 (env.now + ei))
      | none => c.expires_at }

/-- `refresh_idc_token`: requires clientId and clientSecret before any I/O,
then one HTTP call. -/
def refresh_idc_token (env : Env) (c : KiroCredentials) :
    Except String KiroCredentials × Nat :=
  match c.client_id with
  | none => (.error "IdC 刷新需要 clientId", 0)
  | some _ =>
    match c.client_secret with
    | none => (.error "IdC 刷新需要 clientSecret", 0)
    | some _ =>
      match env.refresh_idc_http c with
      | .error m => (.error m, 1)
      | .ok r => (.ok (applyRefreshResponse env c r false), 1)

/-- `refresh_social_token`: requires a machine id before any I/O, then one
HTTP call. -/
def refresh_social_token (env : Env) (c : KiroCredentials) :
    Except String KiroCredentials × Nat :=
  match generate_from_credentials env c with
  | none => (.error "无法生成 machineId", 0)
  | some _ =>
    match env.refresh_social_http c with
    | .error m => (.error m, 1)
    | .ok r => (.ok (applyRefreshResponse env c r true), 1)

/-- `refresh_token` (the free function): validate, dispatch on the lowercased
`auth_method`, perform the HTTP call through the oracle.  The second component
counts HTTP calls actually issued. -/
def refresh_token_call (env : Env) (c : KiroCredentials) :
    Except String KiroCredentials × Nat :=
  match validate_refresh_token c with
  | .error m => (.error m, 0)
  | .ok _ =>
    if strLower ((c.auth_method).getD "social") == "idc"
       || strLower ((c.auth_method).getD "social") == "builder-id" then
      refresh_idc_token env c
    else refresh_social_token env c

/-! ### Persistence (`persist_credentials`) -/

/-- `persist_credentials`: skipped (`Ok(false)`) unless the source file was
the multi-credential array format and a path is configured; otherwise a real
write that succeeds or fails according to the environment. -/
def persist_credentials (persistOk : Bool) (s : ManagerState) : Except String Bool :=
  if !s.is_multiple_format then .ok false
  else if !s.has_credentials_path then .ok false
  else if persistOk then .ok true
  else .error "回写凭证文件失败"

/-- The `{ mutate; persist_credentials()?; Ok(()) }` tail shared by every
admin operation: the in-memory state is already mutated, the persist error is
merely propagated. -/
def andPersist (persistOk : Bool) (s : ManagerState) : Except String Unit × ManagerState :=
  match persist_credentials persistOk s with
  | .error m => (.error m, s)
  | .ok _ => (.ok (), s)

/-! ### Success / failure reporting -/

/-- `report_success(id)`: reset the failure counter. -/
def report_success (s : ManagerState) (id : Nat) : ManagerState :=
  { s with entries := updateFirst s.entries id (fun e => { e with failure_count := 0 }) }

/-- `report_failure(id)`: increment the counter, disable with
`TooManyFailures` at the threshold (switching the selection to the smallest
available id, or returning `false` when none remains); the returned `Bool`
says whether any entry is still available.  `bump_failure` is the per-entry
update applied under the lock: increment, and disable with reason
`TooManyFailures` once the new counter reaches the threshold. -/
def bump_failure (e : CredentialEntry) : CredentialEntry :=
  if MAX_FAILURES_PER_CREDENTIAL ≤ e.failure_count + 1 then
    { e with failure_count := e.failure_count + 1, disabled := true,
             disabled_reason := some .TooManyFailures }
  else { e with failure_count := e.failure_count + 1 }

def report_failure (s : ManagerState) (id : Nat) : Bool × ManagerState :=
  match s.entries.find? (fun e => e.id == id) with
  | none => (s.entries.any (fun e => !e.disabled), s)
  | some e₀ =>
    if MAX_FAILURES_PER_CREDENTIAL ≤ e₀.failure_count + 1 then
      match minById ((updateFirst s.entries id bump_failure).filter
          (fun e => e.is_available)) with
      | some next =>
          ((updateFirst s.entries id bump_failure).any (fun e => e.is_available),
           { s with entries := updateFirst s.entries id bump_failure,
                    current_id := next.id })
      | none =>
          (false, { s with entries := updateFirst s.entries id bump_failure })
    else
      ((updateFirst s.entries id bump_failure).any (fun e => e.is_available),
       { s with entries := updateFirst s.entries id bump_failure })

/-- `report_failure_with_error(id, msg)`: on an invalidation-classified
message, hard-disable (`Suspended`, `status := "invalid"`), re-select, and
best-effort persist; otherwise plain `report_failure`.  (Defined by the
source but not invoked by the retry engine — see the C2 theorems.) -/
def report_failure_with_error (persistOk : Bool) (s : ManagerState) (id : Nat)
    (msg : String) : Bool × ManagerState :=
  if is_credential_invalid_error msg then
    match s.entries.find? (fun e => e.id == id) with
    | some _ =>
      let entries' := updateFirst s.entries id (fun e =>
        { e with disabled := true, disabled_reason := some .Suspended,
                 credentials := { e.credentials with status := "invalid" } })
      let current' := match minById (entries'.filter (fun e => e.is_available)) with
        | some next => next.id
        | none => s.current_id
      let s' := { s with entries := entries', current_id := current' }
      -- persist failure only logged
      let _ := persist_credentials persistOk s'
      (entries'.any (fun e => e.is_available), s')
    | none => (s.entries.any (fun e => e.is_available), s)
  else
    report_failure s id

/-! ### Selection helpers -/

/-- `select_smallest_id`: smallest-id *non-disabled* entry becomes current
(note: status and active group are NOT consulted here — this is the routine
`delete_credential` uses to re-select). -/
def select_smallest_id (s : ManagerState) : ManagerState :=
  match minById (s.entries.filter (fun e => !e.disabled)) with
  | some best => if best.id != s.current_id then { s with current_id := best.id } else s
  | none => s

/-- `switch_to_next_by_id`: smallest-id non-disabled entry other than the
current one becomes current (used after an in-`acquire` refresh failure). -/
def switch_to_next_by_id (s : ManagerState) : ManagerState :=
  match minById (s.entries.filter (fun e => !e.disabled && e.id != s.current_id)) with
  | some e => { s with current_id := e.id }
  | none => s

/-! ### Admin operations

Every operation mutates in memory first and then runs
`self.persist_credentials()?`, so a persistence failure surfaces as the
operation's error *after* the mutation has been applied; the state component
of the result is therefore always the mutated state. -/

/-- `set_disabled(id, disabled)`. -/
def set_disabled (persistOk : Bool) (s : ManagerState) (id : Nat) (disabled : Bool) :
    Except String Unit × ManagerState :=
  match s.entries.find? (fun e => e.id == id) with
  | none => (.error "凭证不存在", s)
  | some _ =>
    let s' := { s with entries := updateFirst s.entries id (fun e =>
      if disabled then
        { e with disabled := true, disabled_reason := some .Manual }
      else
        { e with disabled := false, failure_count := 0, disabled_reason := none }) }
    andPersist persistOk s'

/-- `mark_as_suspended(id)`. -/
def mark_as_suspended (persistOk : Bool) (s : ManagerState) (id : Nat) :
    Except String Unit × ManagerState :=
  match s.entries.find? (fun e => e.id == id) with
  | none => (.error "凭证不存在", s)
  | some _ =>
    let s' := { s with entries := updateFirst s.entries id (fun e =>
      { e with disabled := true, disabled_reason := some .Suspended,
               credentials := { e.credentials with status := "invalid" } }) }
    andPersist persistOk s'

/-- `reset_and_enable(id)`. -/
def reset_and_enable (persistOk : Bool) (s : ManagerState) (id : Nat) :
    Except String Unit × ManagerState :=
  match s.entries.find? (fun e => e.id == id) with
  | none => (.error "凭证不存在", s)
  | some _ =>
    let s' := { s with entries := updateFirst s.entries id (fun e =>
      { e with failure_count := 0, disabled := false, disabled_reason := none,
               credentials := { e.credentials with status :=
                 if e.credentials.status == "invalid" then "normal"
                 else e.credentials.status } }) }
    andPersist persistOk s'

/-- `update_status(id, status)` — sets the status string and nothing else. -/
def update_status (persistOk : Bool) (s : ManagerState) (id : Nat) (status : String) :
    Except String Unit × ManagerState :=
  match s.entries.find? (fun e => e.id == id) with
  | none => (.error "凭证不存在", s)
  | some _ =>
    let s' := { s with entries := updateFirst s.entries id (fun e =>
      { e with credentials := { e.credentials with status := status } }) }
    andPersist persistOk s'

/-- `set_group(id, group_id)`. -/
def set_group (persistOk : Bool) (s : ManagerState) (id : Nat) (groupId : String) :
    Except String Unit × ManagerState :=
  match s.entries.find? (fun e => e.id == id) with
  | none => (.error "凭证不存在", s)
  | some _ =>
    let s' := { s with entries := updateFirst s.entries id (fun e =>
      { e with credentials := { e.credentials with group_id := groupId } }) }
    andPersist persistOk s'

/-- The `entries.retain(|e| e.id != id)` step of `delete_credential`. -/
def removeEntry (s : ManagerState) (id : Nat) : ManagerState :=
  { s with entries := s.entries.filter (fun e => e.id != id) }

/-- The final `current_id = 0` reset of `delete_credential` when the pool has
become empty. -/
def reset_if_empty (s : ManagerState) : ManagerState :=
  if s.entries.isEmpty then { s with current_id := 0 } else s

/-- `delete_credential(id)`: remove the entry, re-select via
`select_smallest_id` when the current entry was deleted, reset the selection
to 0 when the pool is now empty, then persist. -/
def delete_credential (persistOk : Bool) (s : ManagerState) (id : Nat) :
    Except String Unit × ManagerState :=
  match s.entries.find? (fun e => e.id == id) with
  | none => (.error "凭证不存在", s)
  | some _ =>
    andPersist persistOk (reset_if_empty
      (if s.current_id == id then select_smallest_id (removeEntry s id)
       else removeEntry s id))

/-- The id-allocation loop of `add_credential` step 4:
`let mut id = 1; while used_ids.contains(&id) { id += 1 }`.
Among `1 .. used.length + 1` at least one value is unused, so fuel
`used.length + 1` always suffices to reproduce the loop's result. -/
def firstFreeFrom (used : List Nat) : Nat → Nat → Nat
  | start, 0 => start
  | start, fuel + 1 => if used.contains start then firstFreeFrom used (start + 1) fuel else start

/-- Smallest unused id ≥ 1. -/
def firstUnusedId (used : List Nat) : Nat :=
  firstFreeFrom used 1 (used.length + 1)

/-- The duplicate test of `add_credential` step 2: the first 50 chars of the
new refresh token must differ from every existing entry's. -/
def duplicate_refresh_token (s : ManagerState) (new_cred : KiroCredentials) : Bool :=
  s.entries.any (fun e =>
    match e.credentials.refresh_token with
    | some t => t.data.take 50 == ((new_cred.refresh_token).getD "").data.take 50
    | none => false)

/-- Steps 4-5 of `add_credential`: allocate the smallest unused id ≥ 1, keep
the caller's auth metadata on the refreshed credential, and push the new
enabled entry. -/
def insert_validated (s : ManagerState) (new_cred validated : KiroCredentials) :
    ManagerState :=
  { s with entries := s.entries ++
    [{ id := firstUnusedId (s.entries.map (·.id))
     , credentials := { validated with
         id := some (firstUnusedId (s.entries.map (·.id)))
         auth_method := new_cred.auth_method
         client_id := new_cred.client_id
         client_secret := new_cred.client_secret }
     , failure_count := 0, disabled := false, disabled_reason := none }] }

/-- `add_credential(new_cred)`: validate, reject duplicates by the first 50
chars of the refresh token, refresh for real, allocate the smallest unused
id ≥ 1, keep the caller's auth metadata, insert enabled, persist.  (The
best-effort usage-limits fetch that follows only updates cached metadata or
suspends the new entry; it is outside the scope of the pool invariants.) -/
def add_credential (env : Env) (s : ManagerState) (new_cred : KiroCredentials) :
    Except String Nat × ManagerState :=
  match validate_refresh_token new_cred with
  | .error m => (.error m, s)
  | .ok _ =>
    if duplicate_refresh_token s new_cred then
      (.error "凭证已存在", s)
    else
      match (refresh_token_call env new_cred).1 with
      | .error m => (.error m, s)
      | .ok validated =>
        match persist_credentials env.persist_ok (insert_validated s new_cred validated) with
        | .error m => (.error m, insert_validated s new_cred validated)
        | .ok _ => (.ok (firstUnusedId (s.entries.map (·.id))),
                    insert_validated s new_cred validated)

/-! ### `acquire_context`

The body of the selection block of `acquire_context`: prefer the current
entry when it is available and in the active group; otherwise take the
smallest-id available entry in the group, running the one-shot self-heal
(re-enable every `TooManyFailures` entry) first when that search comes up
empty although some entry was auto-disabled.  (The source computes `best`,
then conditionally heals and recomputes `best`; merging the two computations
into "maybe-healed entries, then one `min`" is literally equivalent because
the un-healed `best` is reused unchanged when the heal does not fire.) -/

/-- The self-heal body: clear `disabled`, `disabled_reason` and
`failure_count` on every entry whose reason is `TooManyFailures`. -/
def heal_too_many_failures (l : List CredentialEntry) : List CredentialEntry :=
  l.map (fun e =>
    if e.disabled_reason == some .TooManyFailures then
      { e with disabled := false, disabled_reason := none, failure_count := 0 }
    else e)

/-- Availability inside the active group (the filter applied by the
selection block). -/
def availInGroup (ag : Option String) (l : List CredentialEntry) : List CredentialEntry :=
  l.filter (fun e => e.is_available && in_group ag e.credentials)

/-- The tail of the selection block once the current entry has been ruled
out: take the smallest-id available entry in the active group from the
(possibly healed) entry list, updating `current_id`, or fail. -/
def select_best (s : ManagerState) (entries' : List CredentialEntry) :
    Except String (Nat × KiroCredentials) × ManagerState :=
  match minById (availInGroup s.active_group_id entries') with
  | some e => (.ok (e.id, e.credentials), { s with entries := entries', current_id := e.id })
  | none => (.error "凭证均已禁用或无可用凭证", { s with entries := entries' })

/-- One selection step of `acquire_context` (everything inside the big lock
scope): yields the chosen `(id, credentials)` or the
"all disabled / none available" error, plus the possibly-healed state with
an updated `current_id`. -/
def acquire_select (s : ManagerState) : Except String (Nat × KiroCredentials) × ManagerState :=
  match s.entries.find? (fun e =>
      e.id == s.current_id && e.is_available && in_group s.active_group_id e.credentials) with
  | some e => (.ok (e.id, e.credentials), s)
  | none =>
    select_best s
      (if (minById (availInGroup s.active_group_id s.entries)).isNone
          && s.entries.any (fun e =>
               e.disabled && e.disabled_reason == some .TooManyFailures) then
         heal_too_many_failures s.entries
       else s.entries)

/-- The API call context handed to the retry engine (`struct CallContext`). -/
structure CallContext where
  id : Nat
  credentials : KiroCredentials
  token : String
deriving Repr, DecidableEq

/-- `CallContext` assembly tail of `try_ensure_token`: the access token must
be present. -/
def mkCallContext (id : Nat) (creds : KiroCredentials) (s : ManagerState) (n : Nat) :
    Except String CallContext × ManagerState × Nat :=
  match creds.access_token with
  | some t => (.ok ⟨id, creds, t⟩, s, n)
  | none => (.error "没有可用的 accessToken", s, n)

/-- A best-effort operation whose failure is only logged: the first argument
is evaluated for its effect on the log and the result is the second argument
unchanged (`if let Err(e) = ... { tracing::warn!(...) }`). -/
def logged {α : Type} (_result : Except String Bool) (a : α) : α := a

/-- Overwrite the credentials of the (first) entry with the given id
(`entry.credentials = new_creds.clone()`). -/
def set_entry_credentials (s : ManagerState) (id : Nat) (new_creds : KiroCredentials) :
    ManagerState :=
  { s with entries := updateFirst s.entries id (fun e => { e with credentials := new_creds }) }

/-- `try_ensure_token(id, credentials)`: double-checked refresh.  The `Nat`
counts refresh HTTP calls issued.  On refresh success the entry is updated in
place and the pool persisted best-effort (a persist failure is only logged,
so it does not influence the result). -/
def try_ensure_token (env : Env) (s : ManagerState) (id : Nat)
    (credentials : KiroCredentials) : Except String CallContext × ManagerState × Nat :=
  if is_token_expired env credentials || is_token_expiring_soon env credentials then
    match s.entries.find? (fun e => e.id == id) with
    | none => (.error "凭证不存在", s, 0)
    | some entry =>
      if is_token_expired env entry.credentials
         || is_token_expiring_soon env entry.credentials then
        match refresh_token_call env entry.credentials with
        | (.error m, n) => (.error m, s, n)
        | (.ok new_creds, n) =>
          if is_token_expired env new_creds then
            (.error "刷新后的 Token 仍然无效或已过期", s, n)
          else
            logged (persist_credentials env.persist_ok (set_entry_credentials s id new_creds))
              (mkCallContext id new_creds (set_entry_credentials s id new_creds) n)
      else
        mkCallContext id entry.credentials s 0
  else
    mkCallContext id credentials s 0

/-- The hard-disable applied when a refresh failure is classified
credential-invalid: `disabled = true`, reason `Suspended`,
`status = "invalid"`. -/
def suspend_entry (s : ManagerState) (id : Nat) : ManagerState :=
  { s with entries := updateFirst s.entries id (fun e =>
      { e with disabled := true, disabled_reason := some .Suspended,
               credentials := { e.credentials with status := "invalid" } }) }

/-- The retry loop of `acquire_context`: up to `total_count()` iterations of
select-then-ensure; a refresh failure classified credential-invalid
hard-disables the entry (`Suspended`, `status := "invalid"`, best-effort
persist) before switching to the next credential without charging a failure.
`fuel` is `total - tried_count`; the `Nat` accumulates refresh HTTP calls. -/
def acquire_loop (env : Env) (s : ManagerState) :
    Nat → Nat → Except String CallContext × ManagerState × Nat
  | 0, calls => (.error "所有凭证均无法获取有效 Token", s, calls)
  | fuel + 1, calls =>
    match acquire_select s with
    | (.error m, s₁) => (.error m, s₁, calls)
    | (.ok (id, credentials), s₁) =>
      match try_ensure_token env s₁ id credentials with
      | (.ok ctx, s₂, n) => (.ok ctx, s₂, calls + n)
      | (.error m, s₂, n) =>
        acquire_loop env
          (switch_to_next_by_id
            (if is_credential_invalid_error m then
              logged (persist_credentials env.persist_ok
                  (suspend_entry s₂ id))
                (suspend_entry s₂ id)
             else s₂))
          fuel (calls + n)

/-- `acquire_context()`.  The third component counts refresh HTTP calls
issued while acquiring. -/
def acquire_context (env : Env) (s : ManagerState) :
    Except String CallContext × ManagerState × Nat :=
  acquire_loop env s s.entries.length 0

/-! ### Manager construction (`MultiTokenManager::new`) -/

/-- Assign ids to loaded credentials: keep an existing id, otherwise hand out
fresh ids starting at `max existing + 1`; an entry loaded with
`status == "invalid"` starts disabled with reason `Suspended`. -/
def assignIds (creds : List KiroCredentials) : List CredentialEntry :=
  let maxExisting := (creds.filterMap (·.id)).foldl max 0
  (creds.foldl (fun (acc : List CredentialEntry × Nat) c =>
    let (id, c', next) := match c.id with
      | some i => (i, c, acc.2)
      | none => (acc.2, { c with id := some acc.2 }, acc.2 + 1)
    let (disabled, reason) :=
      if c.status == "invalid" then (true, some DisabledReason.Suspended)
      else (false, (none : Option DisabledReason))
    (acc.1 ++ [{ id := id, credentials := c', failure_count := 0,
                 disabled := disabled, disabled_reason := reason }], next))
    ([], maxExisting + 1)).1

/-- `MultiTokenManager::new`: assign ids, reject duplicates, select the
smallest-id available entry (0 when none). -/
def manager_new (creds : List KiroCredentials) (hasPath multipleFormat : Bool) :
    Except String ManagerState :=
  let entries := assignIds creds
  if (entries.map (·.id)).Nodup then
    let initial_id := ((minById (entries.filter (·.is_available))).map (·.id)).getD 0
    .ok { entries := entries, current_id := initial_id, active_group_id := none,
          is_multiple_format := multipleFormat, has_credentials_path := hasPath }
  else
    .error "检测到重复的凭证 ID"

/-! ### Streaming retry engine (`provider.rs`, `call_api_with_retry`) -/

/-- `MAX_RETRIES_PER_CREDENTIAL` -/
def MAX_RETRIES_PER_CREDENTIAL : Nat := 3

/-- `MAX_TOTAL_RETRIES` -/
def MAX_TOTAL_RETRIES : Nat := 9

/-- What one upstream `POST /generateAssistantResponse` attempt yields. -/
inductive UpstreamOutcome where
  | transportError (msg : String)
  | http (status : Nat) (body : String)
deriving Repr, DecidableEq

/-- `reqwest::StatusCode::is_success`: 200..=299. -/
def isSuccessStatus (st : Nat) : Bool :=
  200 ≤ st && st ≤ 299

/-- The body of the `for attempt in 0..max_retries` loop of
`call_api_with_retry`.  `upstream` maps the attempt index to that attempt's
outcome; `build_headers` fails exactly when no machine id can be generated.
Classification: 2xx → `report_success` and return; 400 → immediate
client-fault error; 429 → loop without touching per-credential state;
anything else (and transport errors) → `report_failure`, bailing out when no
credential remains available. -/
def retry_loop (env : Env) (upstream : Nat → UpstreamOutcome) :
    ManagerState → Nat → Nat → Option String → Except String CallContext × ManagerState
  | s, _, 0, lastError =>
    (.error (lastError.getD "已达到最大重试次数"), s)
  | s, attempt, remaining + 1, _lastError =>
    match acquire_context env s with
    | (.error m, s₁, _) => retry_loop env upstream s₁ (attempt + 1) remaining (some m)
    | (.ok ctx, s₁, _) =>
      match generate_from_credentials env ctx.credentials with
      | none => retry_loop env upstream s₁ (attempt + 1) remaining (some "无法生成 machine_id")
      | some _ =>
        match upstream attempt with
        | .transportError m =>
          let (hasAvailable, s₂) := report_failure s₁ ctx.id
          if !hasAvailable then (.error m, s₂)
          else retry_loop env upstream s₂ (attempt + 1) remaining (some m)
        | .http st body =>
          if isSuccessStatus st then
            (.ok ctx, report_success s₁ ctx.id)
          else if st == 400 then
            (.error ("API 请求失败: 400 " ++ body), s₁)
          else if st == 429 then
            retry_loop env upstream s₁ (attempt + 1) remaining
              (some ("API 请求被限流: 429 " ++ body))
          else
            let (hasAvailable, s₂) := report_failure s₁ ctx.id
            if !hasAvailable then
              (.error ("API 请求失败（所有凭据已用尽）: " ++ body), s₂)
            else
              retry_loop env upstream s₂ (attempt + 1) remaining
                (some ("API 请求失败: " ++ body))

/-- `call_api_with_retry`: at most `min(total_count * 3, 9)` attempts. -/
def call_api_with_retry (env : Env) (upstream : Nat → UpstreamOutcome)
    (s : ManagerState) : Except String CallContext × ManagerState :=
  let max_retries := min (s.entries.length * MAX_RETRIES_PER_CREDENTIAL) MAX_TOTAL_RETRIES
  retry_loop env upstream s 0 max_retries none

/-! ### Non-stream response finalization (`anthropic/handlers.rs`,
`handle_non_stream_request`) -/

/-- `CONTEXT_WINDOW_SIZE` (200k tokens). -/
def CONTEXT_WINDOW_SIZE : Int := 200000

/-- Rust `expr as i32` applied to an `f64`: truncate toward zero, saturating
at the `i32` range. -/
def f64_as_i32 (q : ℚ) : Int :=
  let t := q.num.tdiv (q.den : Int)
  if t < -(2 ^ 31) then -(2 ^ 31)
  else if (2 ^ 31 - 1 : Int) < t then 2 ^ 31 - 1
  else t

/-- The exact `input_tokens` computation for a `contextUsageEvent`:
`(percentage * 200000.0 / 100.0) as i32`.  All percentages appearing in the
theorems below are dyadic rationals with small numerators, on which the two
IEEE-double operations performed by the source are exact, so the rational
model coincides with the `f64` computation there. -/
def context_usage_tokens (percentage : ℚ) : Int :=
  f64_as_i32 (percentage * (CONTEXT_WINDOW_SIZE : ℚ) / 100)

/-- Decoded semantic events, as consumed by the `match event` in
`handle_non_stream_request` (the decoder itself lives in files outside the
pool core; only the shape used by the handler matters here). -/
inductive KiroEvent where
  | assistantResponse (content : String)
  | toolUse (tool_use_id name input : String) (stop : Bool)
  | contextUsage (percentage : ℚ)
  | exception (exception_type message : String)
  | other
deriving Repr

/-- A completed tool-use block collected by the non-stream handler; the
`input` field holds the accumulated raw JSON buffer (the handler parses it
with serde, defaulting to `{}` — the parse result is irrelevant to the
claims, so the raw buffer is kept). -/
structure ToolUseBlock where
  tool_use_id : String
  name : String
  input_raw : String
deriving Repr, DecidableEq

/-- Mutable locals of the event loop in `handle_non_stream_request`. -/
structure NonStreamAcc where
  text_content : String
  tool_uses : List ToolUseBlock
  has_tool_use : Bool
  stop_reason : String
  context_input_tokens : Option Int
  tool_json_buffers : List (String × String)
deriving Repr

/-- Initial values of those locals. -/
def NonStreamAcc.init : NonStreamAcc :=
  { text_content := "", tool_uses := [], has_tool_use := false,
    stop_reason := "end_turn", context_input_tokens := none, tool_json_buffers := [] }

/-- `tool_json_buffers.entry(id).or_insert_with(String::new).push_str(input)`
on an association list. -/
def bufferAppend (bufs : List (String × String)) (id input : String) :
    List (String × String) :=
  match bufs with
  | [] => [(id, input)]
  | (k, v) :: rest =>
    if k == id then (k, v ++ input) :: rest
    else (k, v) :: bufferAppend rest id input

/-- Buffer lookup (the value read back for the completed tool call). -/
def bufferGet (bufs : List (String × String)) (id : String) : String :=
  match bufs.find? (fun p => p.1 == id) with
  | some p => p.2
  | none => ""

/-- One iteration of the event loop of `handle_non_stream_request`. -/
def nonStreamStep (acc : NonStreamAcc) (ev : KiroEvent) : NonStreamAcc :=
  match ev with
  | .assistantResponse content =>
    { acc with text_content := acc.text_content ++ content }
  | .toolUse id name input stop =>
    let bufs := bufferAppend acc.tool_json_buffers id input
    let acc := { acc with has_tool_use := true, tool_json_buffers := bufs }
    if stop then
      { acc with tool_uses := acc.tool_uses ++
          [{ tool_use_id := id, name := name, input_raw := bufferGet bufs id }] }
    else acc
  | .contextUsage p =>
    { acc with context_input_tokens := some (context_usage_tokens p) }
  | .exception ty _ =>
    if ty == "ContentLengthExceededException" then
      { acc with stop_reason := "max_tokens" }
    else acc
  | .other => acc

/-- The whole event loop. -/
def nonStreamFold (events : List KiroEvent) : NonStreamAcc :=
  events.foldl nonStreamStep NonStreamAcc.init

/-- The `stop_reason` adjustment after the loop:
`if has_tool_use && stop_reason == "end_turn" { stop_reason = "tool_use" }`. -/
def finalStopReason (events : List KiroEvent) : String :=
  let acc := nonStreamFold events
  if acc.has_tool_use && acc.stop_reason == "end_turn" then "tool_use"
  else acc.stop_reason

/-- `usage.input_tokens` of the non-stream response: the
context-usage-derived value when one was decoded, else the pre-call
estimate. -/
def finalInputTokens (events : List KiroEvent) (estimate : Int) : Int :=
  (nonStreamFold events).context_input_tokens.getD estimate

/-! ### Credentials file JSON (`kiro/model/credentials.rs`)

A small JSON value model sufficient for the credentials file: numbers are
rationals (`u64` ids are integral values, `f64` usage figures are the
rationals the doubles denote). -/

inductive Json where
  | null : Json
  | bool : Bool → Json
  | num : ℚ → Json
  | str : String → Json
  | arr : List Json → Json
  | obj : List (String × Json) → Json

/-- Top-level shape test: is this value a JSON array? -/
def Json.isArr : Json → Bool
  | .arr _ => true
  | _ => false

/-- serde serialization of one credential (camelCase keys, declaration
order, `skip_serializing_if` on every `Option` plus `priority == 0`,
`status == "normal"`, `group_id == "default"`). -/
def serializeCredential (c : KiroCredentials) : Json :=
  Json.obj (
    (match c.id with | some v => [("id", Json.num v)] | none => []) ++
    (match c.access_token with | some v => [("accessToken", Json.str v)] | none => []) ++
    (match c.refresh_token with | some v => [("refreshToken", Json.str v)] | none => []) ++
    (match c.profile_arn with | some v => [("profileArn", Json.str v)] | none => []) ++
    (match c.expires_at with | some v => [("expiresAt", Json.str v)] | none => []) ++
    (match c.auth_method with | some v => [("authMethod", Json.str v)] | none => []) ++
    (match c.client_id with | some v => [("clientId", Json.str v)] | none => []) ++
    (match c.client_secret with | some v => [("clientSecret", Json.str v)] | none => []) ++
    (if c.priority == 0 then [] else [("priority", Json.num c.priority)]) ++
    (match c.email with | some v => [("email", Json.str v)] | none => []) ++
    (match c.subscription_title with
      | some v => [("subscriptionTitle", Json.str v)] | none => []) ++
    (match c.current_usage with | some v => [("currentUsage", Json.num v)] | none => []) ++
    (match c.usage_limit with | some v => [("usageLimit", Json.num v)] | none => []) ++
    (match c.remaining with | some v => [("remaining", Json.num v)] | none => []) ++
    (match c.next_reset_at with | some v => [("nextResetAt", Json.num v)] | none => []) ++
    (if c.status == "normal" then [] else [("status", Json.str c.status)]) ++
    (if c.group_id == "default" then [] else [("groupId", Json.str c.group_id)]))

/-- Object-field lookup (first occurrence, matching serde's handling of the
well-formed files at issue). -/
def getField (fields : List (String × Json)) (k : String) : Option Json :=
  (fields.find? (fun p => p.1 == k)).map (·.2)

def Json.asStr : Json → Option String
  | .str s => some s
  | _ => none

/-- A JSON number read back as a `u64`-style natural. -/
def Json.asNat : Json → Option Nat
  | .num q => if q.den == 1 && 0 ≤ q.num then some q.num.toNat else none
  | _ => none

def Json.asNum : Json → Option ℚ
  | .num q => some q
  | _ => none

/-- Optional field of the given scalar kind: absent is fine (`none`), present
with the wrong kind is a deserialization error. -/
def parseOpt {α : Type} (fields : List (String × Json)) (k : String)
    (read : Json → Option α) : Option (Option α) :=
  match getField fields k with
  | none => some none
  | some j => (read j).map some

/-- A `#[serde(default = ...)]` field: absent yields the default, present
must have the right kind. -/
def parseDflt {α : Type} (fields : List (String × Json)) (k : String) (dflt : α)
    (read : Json → Option α) : Option α :=
  match getField fields k with
  | none => some dflt
  | some j => read j

/-- serde `Deserialize` of one credential from a JSON object (unknown fields
ignored; defaults: `priority = 0`, `status = "normal"`,
`group_id = "default"`). -/
def parseCredential (j : Json) : Option KiroCredentials :=
  match j with
  | .obj fields =>
    match parseOpt fields "id" Json.asNat,
          parseOpt fields "accessToken" Json.asStr,
          parseOpt fields "refreshToken" Json.asStr,
          parseOpt fields "profileArn" Json.asStr,
          parseOpt fields "expiresAt" Json.asStr,
          parseOpt fields "authMethod" Json.asStr,
          parseOpt fields "clientId" Json.asStr,
          parseOpt fields "clientSecret" Json.asStr,
          parseDflt fields "priority" 0 Json.asNat with
    | some id, some access_token, some refresh_token, some profile_arn,
      some expires_at, some auth_method, some client_id, some client_secret,
      some priority =>
      match parseOpt fields "email" Json.asStr,
            parseOpt fields "subscriptionTitle" Json.asStr,
            parseOpt fields "currentUsage" Json.asNum,
            parseOpt fields "usageLimit" Json.asNum,
            parseOpt fields "remaining" Json.asNum,
            parseOpt fields "nextResetAt" Json.asNum,
            parseDflt fields "status" "normal" Json.asStr,
            parseDflt fields "groupId" "default" Json.asStr with
      | some email, some subscription_title, some current_usage, some usage_limit,
        some remaining, some next_reset_at, some status, some group_id =>
        some (KiroCredentials.mk id access_token refresh_token profile_arn expires_at
          auth_method client_id client_secret priority email subscription_title
          current_usage usage_limit remaining next_reset_at status group_id)
      | _, _, _, _, _, _, _, _ => none
    | _, _, _, _, _, _, _, _, _ => none
  | _ => none

/-- `enum CredentialsConfig` — legacy single object or array. -/
inductive CredentialsConfig where
  | Single (c : KiroCredentials)
  | Multiple (cs : List KiroCredentials)
deriving Repr, DecidableEq

/-- serde `untagged` deserialization: the `Single` variant is tried first,
then `Multiple`.  (A JSON object therefore lands in `Single`; a JSON array of
objects fails the struct parse and lands in `Multiple`.) -/
def parseCredentialsConfig (j : Json) : Option CredentialsConfig :=
  match parseCredential j with
  | some c => some (.Single c)
  | none =>
    match j with
    | .arr xs => (xs.mapM parseCredential).map .Multiple
    | _ => none

/-- `CredentialsConfig::is_multiple`. -/
def CredentialsConfig.is_multiple : CredentialsConfig → Bool
  | .Multiple _ => true
  | .Single _ => false

/-- Stable insertion by `priority` (Rust `sort_by_key` is stable). -/
def insertByPriority (c : KiroCredentials) : List KiroCredentials → List KiroCredentials
  | [] => [c]
  | d :: t => if c.priority < d.priority then c :: d :: t else d :: insertByPriority c t

/-- `CredentialsConfig::into_sorted_credentials`: a single object becomes a
one-element list; an array is stably sorted by ascending priority. -/
def into_sorted_credentials : CredentialsConfig → List KiroCredentials
  | .Single c => [c]
  | .Multiple cs => cs.foldr insertByPriority []

/-- What `persist_credentials` would write: `none` when the write is skipped
(single-object source format or no path), otherwise the pretty-printed
serde serialization of `Vec<KiroCredentials>` — always a JSON array. -/
def persist_payload (s : ManagerState) : Option Json :=
  if !s.is_multiple_format then none
  else if !s.has_credentials_path then none
  else some (Json.arr (s.entries.map (fun e => serializeCredential e.credentials)))

/-! ### Admin operation sequences (for the pool invariants) -/

/-- One admin mutation of the pool. -/
inductive AdminOp where
  | setDisabled (id : Nat) (disabled : Bool)
  | updateStatus (id : Nat) (status : String)
  | setGroup (id : Nat) (groupId : String)
  | resetAndEnable (id : Nat)
  | markAsSuspended (id : Nat)
  | add (cred : KiroCredentials)
  | delete (id : Nat)

/-- The state transition of one admin operation (the in-memory mutation is
applied whether or not the trailing persist succeeds, so the state component
alone describes it). -/
def applyAdminOp (env : Env) (op : AdminOp) (s : ManagerState) : ManagerState :=
  match op with
  | .setDisabled id b => (set_disabled env.persist_ok s id b).2
  | .updateStatus id st => (update_status env.persist_ok s id st).2
  | .setGroup id g => (set_group env.persist_ok s id g).2
  | .resetAndEnable id => (reset_and_enable env.persist_ok s id).2
  | .markAsSuspended id => (mark_as_suspended env.persist_ok s id).2
  | .add c => (add_credential env s c).2
  | .delete id => (delete_credential env.persist_ok s id).2

/-- A whole sequence of admin operations. -/
def applyAdminOps (env : Env) (ops : List AdminOp) (s : ManagerState) : ManagerState :=
  ops.foldl (fun s op => applyAdminOp env op s) s

/-- The spec's pool invariant: `status == "invalid"` implies `disabled`. -/
def InvalidImpliesDisabled (s : ManagerState) : Prop :=
  ∀ e ∈ s.entries, e.credentials.status = "invalid" → e.disabled = true

instance (s : ManagerState) : Decidable (InvalidImpliesDisabled s) := by
  unfold InvalidImpliesDisabled
  infer_instance

/-- The operations that do preserve `InvalidImpliesDisabled`: everything
except `update_status(_, "invalid")`, re-enabling a `status == "invalid"`
entry through `set_disabled(_, false)`, and adding a credential that already
carries `status == "invalid"`. -/
def AdminOp.safeFor (s : ManagerState) : AdminOp → Bool
  | .updateStatus _ st => st != "invalid"
  | .setDisabled id false =>
      s.entries.all (fun e => e.id != id || e.credentials.status != "invalid")
  | .add c => c.status != "invalid"
  | _ => true

/-- Every operation of the sequence is safe in the state it runs in. -/
def safeSeq (env : Env) (s : ManagerState) : List AdminOp → Bool
  | [] => true
  | op :: ops => op.safeFor s && safeSeq env (applyAdminOp env op s) ops

/-! ### Event-stream predicates (for the finalization claims) -/

/-- Did the stream decode a `ContentLengthExceededException`? -/
def isContentLengthExceeded : KiroEvent → Bool
  | .exception ty _ => ty == "ContentLengthExceededException"
  | _ => false

/-- Is this a tool-use event (any fragment, stopped or not)? -/
def isToolUseEvent : KiroEvent → Bool
  | .toolUse _ _ _ _ => true
  | _ => false

/-- The percentage of the last decoded `ContextUsage` event. -/
def lastContextUsage (events : List KiroEvent) : Option ℚ :=
  events.foldl (fun a e =>
    match e with
    | .contextUsage p => some p
    | _ => a) none

/-! ### Concrete fixtures for witnesses and counterexamples -/

/-- An environment with fresh-looking timestamps and no reachable refresh
endpoint (the scenarios below never need a refresh). -/
def wEnv : Env :=
  { parse_rfc3339 := fun _ => some 1000000, now := 0, to_rfc3339 := fun _ => "t",
    sha256_hex := fun _ => "deadbeef",
    refresh_social_http := fun _ => .error "refresh unreachable",
    refresh_idc_http := fun _ => .error "refresh unreachable", persist_ok := true }

/-- A healthy credential in the given group with a fresh token. -/
def wCred (g : String) : KiroCredentials :=
  { KiroCredentials.default with
    access_token := some "T"
    refresh_token := some "R"
    expires_at := some "future"
    group_id := g }

/-- A healthy pool entry. -/
def wEntry (i : Nat) (g : String) : CredentialEntry :=
  { id := i, credentials := wCred g, failure_count := 0,
    disabled := false, disabled_reason := none }

/-- A one-entry pool in multi-credential format with a configured path. -/
def wState : ManagerState :=
  { entries := [wEntry 1 "default"], current_id := 1, active_group_id := none,
    is_multiple_format := true, has_credentials_path := true }

/-- A suspended entry whose credential status is `"invalid"`. -/
def wEntryInv : CredentialEntry :=
  { id := 1, credentials := { wCred "default" with status := "invalid" },
    failure_count := 2, disabled := true, disabled_reason := some .Suspended }

/-- A pool holding only the suspended entry. -/
def sInvState : ManagerState :=
  { entries := [wEntryInv], current_id := 0, active_group_id := none,
    is_multiple_format := true, has_credentials_path := true }

/-- An entry auto-disabled after three failures. -/
def wEntryTMF (i : Nat) (g : String) : CredentialEntry :=
  { wEntry i g with
    disabled := true
    disabled_reason := some .TooManyFailures
    failure_count := 3 }

/-- Entry 1 is available but lives in group "h"; entry 2 is
TooManyFailures-disabled in the active group "g". -/
def sHealFix : ManagerState :=
  { entries := [wEntry 1 "h", wEntryTMF 2 "g"], current_id := 0,
    active_group_id := some "g", is_multiple_format := true, has_credentials_path := true }

/-- Three healthy entries; 1 lives in group "a", 2 and 3 in group "b"; the
active group is "b" and entry 2 is current. -/
def s7fix : ManagerState :=
  { entries := [wEntry 1 "a", wEntry 2 "b", wEntry 3 "b"], current_id := 2,
    active_group_id := some "b", is_multiple_format := true, has_credentials_path := true }

/-- A credential as loaded from a legacy single-object file. -/
def legacyCred : KiroCredentials :=
  { KiroCredentials.default with refresh_token := some "RT" }

/-- The legacy single-object credentials file. -/
def legacyJson : Json := Json.obj [("refreshToken", Json.str "RT")]

/-- The pool entry built from the legacy credential (id 1 assigned on load). -/
def legacyEntry : CredentialEntry :=
  { id := 1, credentials := { legacyCred with id := some 1 }, failure_count := 0,
    disabled := false, disabled_reason := none }

/-- The manager as started from the legacy file: one entry, single-object
format (`is_multiple_format = false`), path configured. -/
def legacyManager : ManagerState :=
  { entries := [legacyEntry], current_id := 1, active_group_id := none,
    is_multiple_format := false, has_credentials_path := true }

/-- Two healthy entries in the default group, entry 1 current. -/
def s2fix : ManagerState :=
  { entries := [wEntry 1 "default", wEntry 2 "default"], current_id := 1,
    active_group_id := none, is_multiple_format := true, has_credentials_path := true }

/-- Upstream behaviour for the retry-engine scenario: the first attempt
returns a 403 whose body matches the credential-invalidation predicate; the
second attempt succeeds. -/
def cexUpstream : Nat → UpstreamOutcome
  | 0 => .http 403 "403 Forbidden TEMPORARILY_SUSPENDED"
  | _ => .http 200 "ok"

/-- Every entry of the pool holds a token that is neither expired nor
expiring soon (so `try_ensure_token` never refreshes). -/
def FreshState (env : Env) (s : ManagerState) : Prop :=
  ∀ e ∈ s.entries, is_token_expired env e.credentials = false
    ∧ is_token_expiring_soon env e.credentials = false

instance (env : Env) (s : ManagerState) : Decidable (FreshState env s) := by
  unfold FreshState
  infer_instance

/-- Entry-wise preservation: every entry of the second state descends from an
entry of the first with the same id and byte-identical credentials (hence the
same `status`), and carries reason `Suspended` only if that origin entry
already did. -/
def CredsPreserved (s₀ s₁ : ManagerState) : Prop :=
  ∀ x ∈ s₁.entries, ∃ e ∈ s₀.entries, x.id = e.id ∧ x.credentials = e.credentials
    ∧ (x.disabled_reason = some .Suspended → e.disabled_reason = some .Suspended)

/-! ## Shared lemmas -/

theorem andPersist_snd (p : Bool) (s : ManagerState) : (andPersist p s).2 = s := by
  unfold andPersist
  cases persist_credentials p s <;> rfl

theorem updateFirst_mem {l : List CredentialEntry} {id : Nat}
    {f : CredentialEntry → CredentialEntry} {x : CredentialEntry}
    (hx : x ∈ updateFirst l id f) :
    x ∈ l ∨ ∃ e ∈ l, e.id = id ∧ x = f e := by
  induction l with
  | nil => simp [updateFirst] at hx
  | cons a t ih =>
    simp only [updateFirst] at hx
    by_cases ha : a.id = id
    · simp [ha] at hx
      rcases hx with hx | hx
      · exact Or.inr ⟨a, List.mem_cons_self a t, ha, hx⟩
      · exact Or.inl (List.mem_cons_of_mem a hx)
    · simp [ha] at hx
      rcases hx with hx | hx
      · exact Or.inl (by simp [hx])
      · rcases ih hx with h | ⟨e, he, hid, hfe⟩
        · exact Or.inl (List.mem_cons_of_mem a h)
        · exact Or.inr ⟨e, List.mem_cons_of_mem a he, hid, hfe⟩

theorem find?_updateFirst {l : List CredentialEntry} {id : Nat}
    {f : CredentialEntry → CredentialEntry} {e : CredentialEntry}
    (hf : ∀ x, (f x).id = x.id)
    (he : l.find? (fun x => x.id == id) = some e) :
    (updateFirst l id f).find? (fun x => x.id == id) = some (f e) := by
  induction l with
  | nil => simp at he
  | cons a t ih =>
    cases ha : (a.id == id) with
    | true =>
      rw [List.find?_cons, ha] at he
      have hae : a = e := by injection he
      subst hae
      simp only [updateFirst, ha, if_true]
      rw [List.find?_cons]
      have hpa : ((f a).id == id) = true := by rw [hf]; exact ha
      rw [hpa]
    | false =>
      rw [List.find?_cons, ha] at he
      have he' : List.find? (fun x => x.id == id) t = some e := he
      simp only [updateFirst, ha]
      rw [if_neg (by simp)]
      rw [List.find?_cons, ha]
      exact ih he'

theorem updateFirst_ids {l : List CredentialEntry} {id : Nat}
    {f : CredentialEntry → CredentialEntry} (hf : ∀ x, (f x).id = x.id) :
    (updateFirst l id f).map (·.id) = l.map (·.id) := by
  induction l with
  | nil => rfl
  | cons a t ih =>
    simp only [updateFirst]
    by_cases ha : (a.id == id) = true
    · simp [ha, hf]
    · simp [ha, ih]

theorem minById_mem {l : List CredentialEntry} {e : CredentialEntry}
    (h : minById l = some e) : e ∈ l := by
  have aux : ∀ (l : List CredentialEntry) (acc : Option CredentialEntry),
      ∀ x, l.foldl (fun acc e =>
        match acc with
        | none => some e
        | some b => if e.id < b.id then some e else acc) acc = some x →
      x ∈ l ∨ acc = some x := by
    intro l
    induction l with
    | nil => intro acc x h; exact Or.inr h
    | cons a t ih =>
      intro acc x h
      simp only [List.foldl_cons] at h
      rcases ih _ x h with hx | hx
      · exact Or.inl (List.mem_cons_of_mem a hx)
      · cases acc with
        | none =>
          simp at hx
          exact Or.inl (by simp [hx])
        | some b =>
          by_cases hlt : a.id < b.id
          · simp [hlt] at hx
            exact Or.inl (by simp [hx])
          · simp [hlt] at hx
            exact Or.inr (by simp [hx])
  rcases aux l none e h with h' | h'
  · exact h'
  · simp at h'

theorem minById_none {l : List CredentialEntry} (h : minById l = none) : l = [] := by
  have aux : ∀ (l : List CredentialEntry) (b : CredentialEntry),
      l.foldl (fun acc e =>
        match acc with
        | none => some e
        | some b => if e.id < b.id then some e else acc) (some b) ≠ none := by
    intro l
    induction l with
    | nil => intro b; simp
    | cons a t ih =>
      intro b
      simp only [List.foldl_cons]
      by_cases hlt : a.id < b.id <;> simp [hlt, ih]
  cases l with
  | nil => rfl
  | cons a t =>
    exfalso
    exact aux t a (by simpa [minById] using h)

/-! ## C6 — stop_reason at finalization -/

theorem foldl_stop_reason (evs : List KiroEvent) :
    ∀ acc : NonStreamAcc, (List.foldl nonStreamStep acc evs).stop_reason =
      (if evs.any isContentLengthExceeded then "max_tokens" else acc.stop_reason) := by
  induction evs with
  | nil => intro acc; simp
  | cons e t ih =>
    intro acc
    rw [List.foldl_cons, ih]
    cases e with
    | exception ty msg =>
      cases hty : (ty == "ContentLengthExceededException") with
      | true =>
        simp [nonStreamStep, isContentLengthExceeded, hty, List.any_cons]
      | false =>
        simp [nonStreamStep, isContentLengthExceeded, hty, List.any_cons]
    | toolUse a b c stop =>
      cases stop <;> simp [nonStreamStep, isContentLengthExceeded, List.any_cons]
    | assistantResponse c =>
      simp [nonStreamStep, isContentLengthExceeded, List.any_cons]
    | contextUsage p =>
      simp [nonStreamStep, isContentLengthExceeded, List.any_cons]
    | other =>
      simp [nonStreamStep, isContentLengthExceeded, List.any_cons]

theorem foldl_has_tool_use (evs : List KiroEvent) :
    ∀ acc : NonStreamAcc, (List.foldl nonStreamStep acc evs).has_tool_use =
      (acc.has_tool_use || evs.any isToolUseEvent) := by
  induction evs with
  | nil => intro acc; simp
  | cons e t ih =>
    intro acc
    rw [List.foldl_cons, ih]
    cases e with
    | exception ty msg =>
      cases hty : (ty == "ContentLengthExceededException") <;>
        simp [nonStreamStep, isToolUseEvent, hty, List.any_cons]
    | toolUse a b c stop =>
      cases stop <;> simp [nonStreamStep, isToolUseEvent, List.any_cons]
    | assistantResponse c =>
      simp [nonStreamStep, isToolUseEvent, List.any_cons]
    | contextUsage p =>
      simp [nonStreamStep, isToolUseEvent, List.any_cons]
    | other =>
      simp [nonStreamStep, isToolUseEvent, List.any_cons]

/-- C6 counterexample: a stream that emits a completed tool call and then a
`ContentLengthExceededException` finalizes with `stop_reason = "max_tokens"`,
not `"tool_use"`, although a tool_use was emitted — the recorded exception
reason wins over tool use in the code, contradicting the claim. -/
theorem stop_reason_suppresses_tool_use_cex :
    (nonStreamFold [KiroEvent.toolUse "toolu_1" "get" "{}" true,
                    KiroEvent.exception "ContentLengthExceededException" "len"]).has_tool_use
      = true
    ∧ finalStopReason [KiroEvent.toolUse "toolu_1" "get" "{}" true,
                       KiroEvent.exception "ContentLengthExceededException" "len"]
      = "max_tokens"
    ∧ "max_tokens" ≠ "tool_use" := by
  refine ⟨by decide, by decide, by decide⟩

/-- C6 (amended): at finalization the recorded exception reason takes
precedence — `stop_reason` is `"max_tokens"` whenever a
`ContentLengthExceededException` was decoded, else `"tool_use"` whenever any
tool_use event occurred, else `"end_turn"`. -/
theorem finalStopReason_characterization (evs : List KiroEvent) :
    finalStopReason evs =
      (if evs.any isContentLengthExceeded then "max_tokens"
       else if evs.any isToolUseEvent then "tool_use"
       else "end_turn") := by
  simp only [finalStopReason, nonStreamFold, foldl_stop_reason, foldl_has_tool_use]
  cases hc : evs.any isContentLengthExceeded <;>
    cases ht : evs.any isToolUseEvent <;>
      simp [NonStreamAcc.init]

/-! ## C9 — input_tokens from ContextUsage -/

theorem foldl_context_tokens (evs : List KiroEvent) :
    ∀ acc : NonStreamAcc, (List.foldl nonStreamStep acc evs).context_input_tokens =
      (match lastContextUsage evs with
       | some p => some (context_usage_tokens p)
       | none => acc.context_input_tokens) := by
  have lastAcc : ∀ (t : List KiroEvent) (p : ℚ),
      t.foldl (fun a e =>
        match e with
        | KiroEvent.contextUsage q => some q
        | _ => a) (some p) =
      (match lastContextUsage t with
       | some q => some q
       | none => some p) := by
    intro t
    induction t with
    | nil => intro p; simp [lastContextUsage]
    | cons e t ih =>
      intro p
      cases e with
      | contextUsage q =>
        simp only [List.foldl_cons, lastContextUsage, ih]
        cases ht : t.foldl (fun a e =>
          match e with
          | KiroEvent.contextUsage q => some q
          | _ => a) none <;> simp_all [lastContextUsage]
      | assistantResponse c => simp only [List.foldl_cons, lastContextUsage, ih]
      | toolUse a b c st => simp only [List.foldl_cons, lastContextUsage, ih]
      | exception ty m => simp only [List.foldl_cons, lastContextUsage, ih]
      | other => simp only [List.foldl_cons, lastContextUsage, ih]
  induction evs with
  | nil => intro acc; simp [lastContextUsage]
  | cons e t ih =>
    intro acc
    rw [List.foldl_cons, ih]
    cases e with
    | contextUsage p =>
      simp only [nonStreamStep, lastContextUsage, List.foldl_cons]
      rw [lastAcc]
      cases ht : lastContextUsage t <;> simp_all [lastContextUsage]
    | exception ty m =>
      cases hty : (ty == "ContentLengthExceededException") <;>
        simp [nonStreamStep, lastContextUsage, hty, List.foldl_cons]
    | toolUse a b c st =>
      cases st <;> simp [nonStreamStep, lastContextUsage, List.foldl_cons]
    | assistantResponse c =>
      simp [nonStreamStep, lastContextUsage, List.foldl_cons]
    | other =>
      simp [nonStreamStep, lastContextUsage, List.foldl_cons]

/-- C9 counterexample: at percentage `1/1024` (exactly representable as an
IEEE double, with `p·200000/100 = 1.953125` computed exactly), the code's
`as i32` cast truncates to 1 while the claim's `round` gives 2. -/
theorem context_usage_truncates_cex :
    finalInputTokens [KiroEvent.contextUsage (1/1024)] 7 = 1
    ∧ round ((1/1024 : ℚ) * 200000 / 100) = 2
    ∧ (1 : Int) ≠ 2 := by
  have hq : context_usage_tokens (1/1024) = 1 := by
    unfold context_usage_tokens f64_as_i32 CONTEXT_WINDOW_SIZE
    norm_num
    decide
  refine ⟨?_, ?_, by decide⟩
  · calc finalInputTokens [KiroEvent.contextUsage (1/1024)] 7
        = (some (context_usage_tokens (1/1024))).getD 7 := by
          simp only [finalInputTokens, nonStreamFold, List.foldl_cons, List.foldl_nil,
            nonStreamStep]
      _ = context_usage_tokens (1/1024) := rfl
      _ = 1 := hq
  · rw [round_eq]
    norm_num

/-- C9 (amended): the final `input_tokens` is the *truncation toward zero*
(Rust `as i32`) of `p × 200000 / 100` for the last decoded `ContextUsage`
percentage `p` — for `0 ≤ p ≤ 100` this is `⌊p · 2000⌋`, not the rounded
value — and the estimate is used when no `ContextUsage` was decoded; the
endpoints behave as claimed: `p = 0` gives 0 and `p = 100` gives 200000. -/
theorem input_tokens_truncation (evs : List KiroEvent) (estimate : Int)
    (p : ℚ) (h0 : 0 ≤ p) (h100 : p ≤ 100) :
    finalInputTokens evs estimate =
      (match lastContextUsage evs with
       | some q => context_usage_tokens q
       | none => estimate)
    ∧ context_usage_tokens p = ⌊p * 2000⌋
    ∧ context_usage_tokens 0 = 0
    ∧ context_usage_tokens 100 = 200000 := by
  have trunc_eq_floor : ∀ q : ℚ, 0 ≤ q → q ≤ 100 →
      context_usage_tokens q = ⌊q * 2000⌋ := by
    intro q hq0 hq100
    unfold context_usage_tokens f64_as_i32 CONTEXT_WINDOW_SIZE
    have harg : q * ((200000 : Int) : ℚ) / 100 = q * 2000 := by
      push_cast
      ring
    rw [harg]
    set r : ℚ := q * 2000 with hr
    have hr0 : 0 ≤ r := by positivity
    have hnum : 0 ≤ r.num := Rat.num_nonneg.mpr hr0
    have hden : (0 : Int) ≤ (r.den : Int) := by positivity
    have htdiv : r.num.tdiv (r.den : Int) = ⌊r⌋ := by
      rw [Int.tdiv_eq_ediv hnum hden, Rat.floor_def]
    have hfl0 : 0 ≤ ⌊r⌋ := Int.floor_nonneg.mpr hr0
    have hfl_le : ⌊r⌋ ≤ 200000 := by
      have : r ≤ 200000 := by
        rw [hr]
        nlinarith
      calc ⌊r⌋ ≤ ⌊(200000 : ℚ)⌋ := Int.floor_le_floor this
        _ = 200000 := by norm_num
    simp only [htdiv]
    rw [if_neg (by omega), if_neg (by omega)]
  refine ⟨?_, trunc_eq_floor p h0 h100, ?_, ?_⟩
  · unfold finalInputTokens nonStreamFold
    rw [foldl_context_tokens]
    cases h : lastContextUsage evs <;> simp [NonStreamAcc.init]
  · rw [trunc_eq_floor 0 (by norm_num) (by norm_num)]
    norm_num
  · rw [trunc_eq_floor 100 (by norm_num) (by norm_num)]
    norm_num

/-- Witness for `input_tokens_truncation` at concrete inputs. -/
theorem input_tokens_truncation_witness :
    (0 : ℚ) ≤ 5 ∧ (5 : ℚ) ≤ 100 ∧
    (finalInputTokens [KiroEvent.contextUsage 5] 3 =
       (match lastContextUsage [KiroEvent.contextUsage 5] with
        | some q => context_usage_tokens q
        | none => 3)
     ∧ context_usage_tokens 5 = ⌊(5 : ℚ) * 2000⌋
     ∧ context_usage_tokens 0 = 0
     ∧ context_usage_tokens 100 = 200000) :=
  ⟨by norm_num, by norm_num,
   input_tokens_truncation [KiroEvent.contextUsage 5] 3 5 (by norm_num) (by norm_num)⟩

/-! ## C3 — status "invalid" implies disabled, across admin operations -/

theorem applyRefreshResponse_keeps_status (env : Env) (c : KiroCredentials)
    (r : RefreshHttpResponse) (b : Bool) :
    (applyRefreshResponse env c r b).status = c.status
    ∧ (applyRefreshResponse env c r b).group_id = c.group_id :=
  ⟨rfl, rfl⟩

theorem refresh_token_call_keeps_status {env : Env} {c v : KiroCredentials}
    (h : (refresh_token_call env c).1 = .ok v) :
    v.status = c.status ∧ v.group_id = c.group_id := by
  unfold refresh_token_call at h
  split at h
  · simp at h
  · split at h
    · unfold refresh_idc_token at h
      split at h
      · simp at h
      · split at h
        · simp at h
        · split at h
          · simp at h
          · simp only at h
            cases h
            exact applyRefreshResponse_keeps_status env c _ false
    · unfold refresh_social_token at h
      split at h
      · simp at h
      · split at h
        · simp at h
        · simp only at h
          cases h
          exact applyRefreshResponse_keeps_status env c _ true

theorem select_smallest_id_entries (s : ManagerState) :
    (select_smallest_id s).entries = s.entries := by
  unfold select_smallest_id
  split
  · split <;> rfl
  · rfl

theorem select_smallest_id_group (s : ManagerState) :
    (select_smallest_id s).active_group_id = s.active_group_id := by
  unfold select_smallest_id
  split
  · split <;> rfl
  · rfl

theorem delete_credential_entries {persistOk : Bool} {s : ManagerState} {id : Nat}
    {e₀ : CredentialEntry}
    (hfind : s.entries.find? (fun e => e.id == id) = some e₀) :
    (delete_credential persistOk s id).2.entries =
      s.entries.filter (fun e => e.id != id) := by
  unfold delete_credential
  rw [hfind]
  simp only [andPersist_snd]
  unfold reset_if_empty
  split
  · split <;> simp [select_smallest_id_entries, removeEntry]
  · split <;> simp [select_smallest_id_entries, removeEntry]

/-- Preservation of the invariant through the entries of an `updateFirst`. -/
theorem inv_updateFirst {s : ManagerState} {id : Nat}
    {f : CredentialEntry → CredentialEntry}
    (hs : InvalidImpliesDisabled s)
    (hf : ∀ e ∈ s.entries, e.id = id →
      (f e).credentials.status = "invalid" → (f e).disabled = true) :
    InvalidImpliesDisabled { s with entries := updateFirst s.entries id f } := by
  intro e' he' hst
  rcases updateFirst_mem he' with h | ⟨e, he, hid, rfl⟩
  · exact hs e' h hst
  · exact hf e he hid hst

theorem adminOp_preserves_inv (env : Env) (op : AdminOp) (s : ManagerState)
    (hs : InvalidImpliesDisabled s) (hsafe : op.safeFor s = true) :
    InvalidImpliesDisabled (applyAdminOp env op s) := by
  cases op with
  | setDisabled id b =>
    show InvalidImpliesDisabled (set_disabled env.persist_ok s id b).2
    unfold set_disabled
    cases hfind : s.entries.find? (fun e => e.id == id) with
    | none => exact hs
    | some e₀ =>
      simp only [andPersist_snd]
      cases b with
      | true =>
        refine inv_updateFirst hs ?_
        intro e he hid hst
        rfl
      | false =>
        refine inv_updateFirst hs ?_
        intro e he hid hst
        exfalso
        simp only [AdminOp.safeFor, List.all_eq_true] at hsafe
        have := hsafe e he
        simp [hid] at this
        exact this hst
  | updateStatus id st =>
    show InvalidImpliesDisabled (update_status env.persist_ok s id st).2
    unfold update_status
    cases hfind : s.entries.find? (fun e => e.id == id) with
    | none => exact hs
    | some e₀ =>
      simp only [andPersist_snd]
      refine inv_updateFirst hs ?_
      intro e he hid hst
      exfalso
      simp only [AdminOp.safeFor] at hsafe
      simp only at hst
      rw [hst] at hsafe
      simp at hsafe
  | setGroup id g =>
    show InvalidImpliesDisabled (set_group env.persist_ok s id g).2
    unfold set_group
    cases hfind : s.entries.find? (fun e => e.id == id) with
    | none => exact hs
    | some e₀ =>
      simp only [andPersist_snd]
      refine inv_updateFirst hs ?_
      intro e he hid hst
      exact hs e he hst
  | resetAndEnable id =>
    show InvalidImpliesDisabled (reset_and_enable env.persist_ok s id).2
    unfold reset_and_enable
    cases hfind : s.entries.find? (fun e => e.id == id) with
    | none => exact hs
    | some e₀ =>
      simp only [andPersist_snd]
      refine inv_updateFirst hs ?_
      intro e he hid hst
      exfalso
      simp only at hst
      by_cases hinv : (e.credentials.status == "invalid") = true
      · rw [if_pos hinv] at hst
        simp at hst
      · rw [if_neg hinv] at hst
        rw [hst] at hinv
        simp at hinv
  | markAsSuspended id =>
    show InvalidImpliesDisabled (mark_as_suspended env.persist_ok s id).2
    unfold mark_as_suspended
    cases hfind : s.entries.find? (fun e => e.id == id) with
    | none => exact hs
    | some e₀ =>
      simp only [andPersist_snd]
      refine inv_updateFirst hs ?_
      intro e he hid hst
      rfl
  | delete id =>
    show InvalidImpliesDisabled (delete_credential env.persist_ok s id).2
    cases hfind : s.entries.find? (fun e => e.id == id) with
    | none =>
      unfold delete_credential
      rw [hfind]
      exact hs
    | some e₀ =>
      intro e' he' hst
      rw [delete_credential_entries hfind] at he'
      exact hs e' (List.mem_of_mem_filter he') hst
  | add c =>
    show InvalidImpliesDisabled (add_credential env s c).2
    unfold add_credential
    split
    · exact hs
    · split
      · exact hs
      · split
        · exact hs
        · rename_i validated heq
          have hstat := (refresh_token_call_keeps_status heq).1
          have key : InvalidImpliesDisabled (insert_validated s c validated) := by
            intro e' he' hinv
            simp only [insert_validated, List.mem_append, List.mem_singleton] at he'
            rcases he' with he' | rfl
            · exact hs e' he' hinv
            · exfalso
              have hv : validated.status = "invalid" := hinv
              simp only [AdminOp.safeFor] at hsafe
              rw [hstat] at hv
              rw [hv] at hsafe
              simp at hsafe
          split
          · exact key
          · exact key

/-- C3 counterexample: `update_status(1, "invalid")` on a healthy pool leaves
the entry enabled with `status == "invalid"` — the claimed invariant fails
after a single admin operation. -/
theorem update_status_invalid_cex :
    InvalidImpliesDisabled wState
    ∧ ¬ InvalidImpliesDisabled (applyAdminOps wEnv [AdminOp.updateStatus 1 "invalid"] wState)
    ∧ ((findEntry (applyAdminOps wEnv [AdminOp.updateStatus 1 "invalid"] wState) 1).map
         (fun e => (e.disabled, e.credentials.status))) = some (false, "invalid") := by
  refine ⟨by decide, by decide, by decide⟩

/-- C3 (amended): the invariant `status == "invalid" ⇒ disabled` is preserved
by every admin operation except `update_status(_, "invalid")`,
`set_disabled(id, false)` on an entry whose status is `"invalid"`, and adding
a credential whose status is already `"invalid"`; over any sequence of the
remaining (safe) operations it holds at every point.  (An entry that does
violate it is still never selectable, since `is_available` checks the status
itself.) -/
theorem admin_ops_invalid_implies_disabled (env : Env) (ops : List AdminOp) :
    (∀ s : ManagerState, InvalidImpliesDisabled s → safeSeq env s ops = true →
      InvalidImpliesDisabled (applyAdminOps env ops s))
    ∧ (∀ s : ManagerState, ∀ e ∈ s.entries, e.credentials.status = "invalid" →
        e.is_available = false) := by
  constructor
  · intro s hs hsafe
    induction ops generalizing s with
    | nil => exact hs
    | cons op rest ih =>
      simp only [safeSeq, Bool.and_eq_true] at hsafe
      exact ih _ (adminOp_preserves_inv env op s hs hsafe.1) hsafe.2
  · intro s e he hst
    simp [CredentialEntry.is_available, hst]

/-- Witness for `admin_ops_invalid_implies_disabled` on a concrete safe
sequence. -/
theorem admin_ops_invalid_implies_disabled_witness :
    (InvalidImpliesDisabled wState
     ∧ safeSeq wEnv wState
         [AdminOp.markAsSuspended 1, AdminOp.resetAndEnable 1,
          AdminOp.setDisabled 1 true, AdminOp.setDisabled 1 false,
          AdminOp.updateStatus 1 "expired", AdminOp.setGroup 1 "work",
          AdminOp.delete 1] = true)
    ∧ InvalidImpliesDisabled (applyAdminOps wEnv
        [AdminOp.markAsSuspended 1, AdminOp.resetAndEnable 1,
         AdminOp.setDisabled 1 true, AdminOp.setDisabled 1 false,
         AdminOp.updateStatus 1 "expired", AdminOp.setGroup 1 "work",
         AdminOp.delete 1] wState) :=
  ⟨⟨by decide, by decide⟩,
   (admin_ops_invalid_implies_disabled wEnv
     [AdminOp.markAsSuspended 1, AdminOp.resetAndEnable 1,
      AdminOp.setDisabled 1 true, AdminOp.setDisabled 1 false,
      AdminOp.updateStatus 1 "expired", AdminOp.setGroup 1 "work",
      AdminOp.delete 1]).1 wState (by decide) (by decide)⟩

/-! ## C5 — persistence failure vs. the in-memory mutation -/

/-- C5 counterexample: with the credentials file unwritable, `set_disabled`
applies the in-memory mutation (the entry is disabled) but returns the
persistence *error* — not success as the claim states. -/
theorem set_disabled_persist_failure_cex :
    (set_disabled false wState 1 true).1 = .error "回写凭证文件失败"
    ∧ ((findEntry (set_disabled false wState 1 true).2 1).map
        (fun e => (e.disabled, e.disabled_reason))) =
      some (true, some DisabledReason.Manual) := by
  refine ⟨rfl, by decide⟩

/-- C5 (amended): the in-memory state of every mutating pool operation is
identical whether or not the persistence write succeeds — a mutation is never
rolled back.  The refresh-success path (`try_ensure_token`) and the
hard-disable path (`report_failure_with_error`) also return identical
*results* on persistence failure (it is only logged); the admin operations,
however, propagate the persistence error as their own result instead of
returning success. -/
theorem persistence_never_rolls_back (s : ManagerState) (id : Nat) (b : Bool)
    (st g : String) :
    ((set_disabled true s id b).2 = (set_disabled false s id b).2
     ∧ (update_status true s id st).2 = (update_status false s id st).2
     ∧ (set_group true s id g).2 = (set_group false s id g).2
     ∧ (reset_and_enable true s id).2 = (reset_and_enable false s id).2
     ∧ (mark_as_suspended true s id).2 = (mark_as_suspended false s id).2
     ∧ (delete_credential true s id).2 = (delete_credential false s id).2)
    ∧ ((s.entries.find? (fun e => e.id == id)).isSome = true →
        s.is_multiple_format = true → s.has_credentials_path = true →
        (set_disabled false s id b).1 = .error "回写凭证文件失败")
    ∧ (∀ env : Env, ∀ creds : KiroCredentials,
        try_ensure_token { env with persist_ok := true } s id creds =
        try_ensure_token { env with persist_ok := false } s id creds)
    ∧ (∀ msg : String,
        report_failure_with_error true s id msg =
        report_failure_with_error false s id msg) := by
  refine ⟨⟨?_, ?_, ?_, ?_, ?_, ?_⟩, ?_, ?_, ?_⟩
  · unfold set_disabled
    cases s.entries.find? (fun e => e.id == id) <;> simp [andPersist_snd]
  · unfold update_status
    cases s.entries.find? (fun e => e.id == id) <;> simp [andPersist_snd]
  · unfold set_group
    cases s.entries.find? (fun e => e.id == id) <;> simp [andPersist_snd]
  · unfold reset_and_enable
    cases s.entries.find? (fun e => e.id == id) <;> simp [andPersist_snd]
  · unfold mark_as_suspended
    cases s.entries.find? (fun e => e.id == id) <;> simp [andPersist_snd]
  · unfold delete_credential
    cases s.entries.find? (fun e => e.id == id) <;> simp [andPersist_snd]
  · intro hsome hm hp
    unfold set_disabled
    cases hf : s.entries.find? (fun e => e.id == id) with
    | none => rw [hf] at hsome; simp at hsome
    | some e₀ =>
      unfold andPersist persist_credentials
      simp [hm, hp]
  · intro env creds
    rfl
  · intro msg
    rfl

/-- Witness for `persistence_never_rolls_back`. -/
theorem persistence_never_rolls_back_witness :
    ((wState.entries.find? (fun e => e.id == 1)).isSome = true
     ∧ wState.is_multiple_format = true ∧ wState.has_credentials_path = true)
    ∧ (set_disabled false wState 1 true).1 = .error "回写凭证文件失败"
    ∧ (set_disabled true wState 1 true).2 = (set_disabled false wState 1 true).2 :=
  ⟨⟨by decide, by decide, by decide⟩,
   (persistence_never_rolls_back wState 1 true "normal" "default").2.1
     (by decide) (by decide) (by decide),
   (persistence_never_rolls_back wState 1 true "normal" "default").1.1⟩

/-! ## C10 — set_disabled(id, false) leaves status alone -/

/-- C10: re-enabling through `set_disabled(id, false)` clears
`failure_count` and `disabled_reason` but leaves the credential (hence its
`status`) untouched, so a `status == "invalid"` entry stays unavailable; only
`reset_and_enable`, which rewrites an `"invalid"` status to `"normal"`, makes
the entry selectable again. -/
theorem set_disabled_enable_frame (persistOk : Bool) (s : ManagerState) (id : Nat)
    (e : CredentialEntry) (he : s.entries.find? (fun x => x.id == id) = some e) :
    findEntry (set_disabled persistOk s id false).2 id =
      some { e with disabled := false, failure_count := 0, disabled_reason := none }
    ∧ (e.credentials.status = "invalid" →
        ∀ e', findEntry (set_disabled persistOk s id false).2 id = some e' →
          e'.is_available = false)
    ∧ (∀ e', findEntry (reset_and_enable persistOk s id).2 id = some e' →
        e'.is_available = true) := by
  have h1 : findEntry (set_disabled persistOk s id false).2 id =
      some { e with disabled := false, failure_count := 0, disabled_reason := none } := by
    unfold set_disabled
    rw [he]
    simp only [andPersist_snd]
    unfold findEntry
    simp only
    have h := @find?_updateFirst s.entries id
      (fun x =>
        if false then { x with disabled := true, disabled_reason := some .Manual }
        else { x with disabled := false, failure_count := 0, disabled_reason := none })
      e (fun x => rfl) he
    simpa using h
  refine ⟨h1, ?_, ?_⟩
  · intro hst e' he'
    rw [h1] at he'
    cases he'
    simp [CredentialEntry.is_available, hst]
  · intro e' he'
    unfold reset_and_enable at he'
    rw [he] at he'
    simp only [andPersist_snd] at he'
    unfold findEntry at he'
    have h2 := @find?_updateFirst s.entries id
      (fun x => { x with
        failure_count := 0
        disabled := false
        disabled_reason := none
        credentials := { x.credentials with status :=
          if x.credentials.status == "invalid" then "normal"
          else x.credentials.status } })
      e (fun x => rfl) he
    rw [h2] at he'
    cases he'
    by_cases hinv : (e.credentials.status == "invalid") = true
    · simp [CredentialEntry.is_available, hinv]
    · simp only [CredentialEntry.is_available, hinv]
      simp at hinv ⊢
      exact hinv

/-- Witness for `set_disabled_enable_frame` on a suspended entry. -/
theorem set_disabled_enable_frame_witness :
    (sInvState.entries.find? (fun x => x.id == 1) = some wEntryInv
     ∧ wEntryInv.credentials.status = "invalid")
    ∧ (findEntry (set_disabled true sInvState 1 false).2 1 =
        some { wEntryInv with disabled := false, failure_count := 0, disabled_reason := none })
    ∧ (∀ e', findEntry (set_disabled true sInvState 1 false).2 1 = some e' →
        e'.is_available = false)
    ∧ (∀ e', findEntry (reset_and_enable true sInvState 1).2 1 = some e' →
        e'.is_available = true) := by
  have h := set_disabled_enable_frame true sInvState 1 wEntryInv (by decide)
  exact ⟨⟨by decide, by decide⟩, h.1, h.2.1 (by decide), h.2.2⟩

/-! ## C7 — delete and re-selection -/

theorem select_smallest_id_current (s : ManagerState) :
    (select_smallest_id s).current_id =
      ((minById (s.entries.filter (fun e => !e.disabled))).map (·.id)).getD
        s.current_id := by
  unfold select_smallest_id
  cases hm : minById (s.entries.filter (fun e => !e.disabled)) with
  | none => simp
  | some best =>
    simp only [Option.map_some, Option.getD_some]
    split
    · rfl
    · rename_i hne
      simp at hne
      simp [hne]

/-- C7 counterexample: with active group `"b"` and entries 1 (group "a"),
2 and 3 (group "b"), deleting the current entry 2 re-selects entry **1** —
an entry outside the active group — although entry 3 is the smallest
available id within the active group. -/
theorem delete_reselect_ignores_group_cex :
    s7fix.active_group_id = some "b"
    ∧ ((findEntry s7fix 3).map
        (fun e => e.is_available && in_group s7fix.active_group_id e.credentials)) =
      some true
    ∧ (delete_credential true s7fix 2).2.current_id = 1
    ∧ ((findEntry (delete_credential true s7fix 2).2 1).map
        (fun e => in_group (some "b") e.credentials)) = some false
    ∧ (1 : Nat) ≠ 3 := by
  refine ⟨by decide, by decide, by decide, by decide, by decide⟩

/-- C7 (amended): `delete(id)` removes the entry; if the deleted entry was
current, the new selection is the smallest-id *non-disabled* entry of the
*whole pool* — the active group and the `status` field are not consulted —
and the selection is left dangling at the deleted id when every remaining
entry is disabled; if the pool becomes empty the selection becomes 0. -/
theorem delete_credential_spec (persistOk : Bool) (s : ManagerState) (id : Nat)
    (e₀ : CredentialEntry)
    (he : s.entries.find? (fun x => x.id == id) = some e₀) :
    (delete_credential persistOk s id).2.entries =
      s.entries.filter (fun x => x.id != id)
    ∧ ((delete_credential persistOk s id).2.entries ≠ [] → s.current_id = id →
        (delete_credential persistOk s id).2.current_id =
          ((minById ((s.entries.filter (fun x => x.id != id)).filter
              (fun x => !x.disabled))).map (·.id)).getD id)
    ∧ ((delete_credential persistOk s id).2.entries ≠ [] → s.current_id ≠ id →
        (delete_credential persistOk s id).2.current_id = s.current_id)
    ∧ ((delete_credential persistOk s id).2.entries = [] →
        (delete_credential persistOk s id).2.current_id = 0) := by
  unfold delete_credential
  rw [he]
  simp only [andPersist_snd]
  unfold reset_if_empty
  have hte : (if (s.current_id == id) = true then select_smallest_id (removeEntry s id)
      else removeEntry s id).entries = s.entries.filter (fun x => x.id != id) := by
    split <;> simp [select_smallest_id_entries, removeEntry]
  by_cases hemp : ((if (s.current_id == id) = true then select_smallest_id (removeEntry s id)
      else removeEntry s id).entries.isEmpty) = true
  · rw [if_pos hemp]
    rw [List.isEmpty_iff] at hemp
    refine ⟨by simpa using hte, ?_, ?_, ?_⟩
    · intro hne
      exact absurd (by simpa using hemp) hne
    · intro hne
      exact absurd (by simpa using hemp) hne
    · intro _
      rfl
  · rw [if_neg hemp]
    refine ⟨hte, ?_, ?_, ?_⟩
    · intro _ hcur
      have hc : (s.current_id == id) = true := by simp [hcur]
      rw [if_pos hc]
      rw [select_smallest_id_current]
      have : (removeEntry s id).current_id = id := by
        simpa [removeEntry] using hcur
      rw [this]
      rfl
    · intro _ hcur
      have hc : (s.current_id == id) = false := by simp [hcur]
      simp only [hc]
      simp [removeEntry]
    · intro h
      rw [List.isEmpty_iff] at hemp
      exact absurd h hemp

/-- Witness for `delete_credential_spec` on the three-entry pool. -/
theorem delete_credential_spec_witness :
    (s7fix.entries.find? (fun x => x.id == 2) = some (wEntry 2 "b")
     ∧ (delete_credential true s7fix 2).2.entries ≠ [] ∧ s7fix.current_id = 2)
    ∧ (delete_credential true s7fix 2).2.entries =
        s7fix.entries.filter (fun x => x.id != 2)
    ∧ (delete_credential true s7fix 2).2.current_id =
        ((minById ((s7fix.entries.filter (fun x => x.id != 2)).filter
            (fun x => !x.disabled))).map (·.id)).getD 2 := by
  have h := delete_credential_spec true s7fix 2 (wEntry 2 "b") (by decide)
  exact ⟨⟨by decide, by decide, by decide⟩, h.1, h.2.1 (by decide) (by decide)⟩

/-! ## C8 — legacy single-object file and persistence format -/

theorem assignIds_singleton (c : KiroCredentials) : ∃ en, assignIds [c] = [en] := by
  unfold assignIds
  simp only [List.foldl_cons, List.foldl_nil]
  exact ⟨_, rfl⟩

/-- C8 counterexample: a manager loaded from the legacy single-object file
(`is_multiple_format = false`, even with a path configured) never writes the
credentials file at all — `persist_credentials` is skipped with `Ok(false)`
and no JSON array is ever produced — so the legacy file is *not*
re-serialized as an array by subsequent persistence. -/
theorem legacy_single_never_rewritten_cex :
    parseCredentialsConfig legacyJson = some (.Single legacyCred)
    ∧ CredentialsConfig.is_multiple (.Single legacyCred) = false
    ∧ manager_new (into_sorted_credentials (.Single legacyCred)) true false =
        .ok legacyManager
    ∧ legacyManager.has_credentials_path = true
    ∧ persist_payload legacyManager = none
    ∧ persist_credentials true legacyManager = .ok false := by
  refine ⟨by decide, by decide, by decide, by decide, rfl, by decide⟩

/-- C8 (amended): a legacy single-object credentials file is accepted on load
and becomes a one-element pool; when the source file was the *array* format
(and a path is configured), what `persist_credentials` writes is always a
JSON array; but for a legacy single-object file the write is skipped
entirely (`is_multiple_format = false` ⇒ nothing is persisted), so the file
is never re-serialized at all. -/
theorem credentials_file_shape :
    (∀ (fields : List (String × Json)) (c : KiroCredentials),
       parseCredential (Json.obj fields) = some c →
       parseCredentialsConfig (Json.obj fields) = some (.Single c)
       ∧ CredentialsConfig.is_multiple (.Single c) = false
       ∧ into_sorted_credentials (.Single c) = [c])
    ∧ (∀ c : KiroCredentials, ∀ hp mf : Bool,
       ∃ m, manager_new [c] hp mf = .ok m ∧ m.entries.length = 1
         ∧ m.is_multiple_format = mf)
    ∧ (∀ s : ManagerState, s.is_multiple_format = true → s.has_credentials_path = true →
       persist_payload s =
         some (Json.arr (s.entries.map (fun e => serializeCredential e.credentials))))
    ∧ (∀ s : ManagerState, ∀ j : Json, persist_payload s = some j → j.isArr = true)
    ∧ (∀ s : ManagerState, s.is_multiple_format = false → persist_payload s = none) := by
  refine ⟨?_, ?_, ?_, ?_, ?_⟩
  · intro fields c hc
    refine ⟨?_, rfl, rfl⟩
    unfold parseCredentialsConfig
    rw [hc]
  · intro c hp mf
    obtain ⟨en, hen⟩ := assignIds_singleton c
    unfold manager_new
    rw [hen]
    rw [if_pos (by simp)]
    exact ⟨_, rfl, by simp, rfl⟩
  · intro s hm hp
    unfold persist_payload
    rw [hm, hp]
    rfl
  · intro s j hj
    unfold persist_payload at hj
    by_cases hm : s.is_multiple_format = true
    · by_cases hp : s.has_credentials_path = true
      · rw [hm, hp] at hj
        simp at hj
        rw [← hj]
        rfl
      · simp only [Bool.not_eq_true] at hp
        rw [hm, hp] at hj
        simp at hj
    · simp only [Bool.not_eq_true] at hm
      rw [hm] at hj
      simp at hj
  · intro s hm
    unfold persist_payload
    rw [hm]
    rfl

/-- Witness for `credentials_file_shape` on the legacy file. -/
theorem credentials_file_shape_witness :
    (parseCredential legacyJson = some legacyCred
     ∧ wState.is_multiple_format = true ∧ wState.has_credentials_path = true)
    ∧ parseCredentialsConfig legacyJson = some (.Single legacyCred)
    ∧ (∃ m, manager_new [legacyCred] true false = .ok m ∧ m.entries.length = 1
        ∧ m.is_multiple_format = false)
    ∧ persist_payload wState =
        some (Json.arr (wState.entries.map (fun e => serializeCredential e.credentials))) := by
  have h := credentials_file_shape
  refine ⟨⟨by decide, by decide, by decide⟩, ?_, ?_, ?_⟩
  · exact (h.1 [("refreshToken", Json.str "RT")] legacyCred (by decide)).1
  · exact h.2.1 legacyCred true false
  · exact h.2.2.1 wState (by decide) (by decide)

/-! ## C4 — the self-heal trigger and its effect -/

/-- C4 counterexample: entry 1 *is* available (`is_available = true`, merely
outside the active group "g"), yet the selection step self-heals the
`TooManyFailures` entry 2 — self-heal does not require that *no entry is
available*, only that none is available inside the active group. -/
theorem self_heal_despite_available_cex :
    (wEntry 1 "h").is_available = true
    ∧ sHealFix.entries.any (fun e => e.is_available) = true
    ∧ ((findEntry sHealFix 2).map (fun e => (e.disabled, e.failure_count))) =
        some (true, 3)
    ∧ ((findEntry (acquire_select sHealFix).2 2).map
        (fun e => (e.disabled, e.disabled_reason, e.failure_count))) =
        some (false, none, 0) := by
  refine ⟨by decide, by decide, by decide, by decide⟩

/-- C4 (amended): the selection step of `acquire_context` self-heals exactly
when no entry is available *within the active group* and at least one entry
is disabled with reason `TooManyFailures`; the heal re-enables exactly the
`TooManyFailures` entries (clearing `disabled`, `disabled_reason` and
`failure_count` on each) and leaves every other entry — in particular those
disabled with `Manual` or `Suspended` — unchanged. -/
theorem self_heal_spec (s : ManagerState) :
    ((s.entries.any (fun e => e.is_available && in_group s.active_group_id e.credentials) = true
      ∨ s.entries.any (fun e => e.disabled && e.disabled_reason == some .TooManyFailures) = false) →
     (acquire_select s).2.entries = s.entries)
    ∧ (s.entries.any (fun e => e.is_available && in_group s.active_group_id e.credentials) = false →
       s.entries.any (fun e => e.disabled && e.disabled_reason == some .TooManyFailures) = true →
       (acquire_select s).2.entries = heal_too_many_failures s.entries)
    ∧ (∀ e ∈ s.entries, e.disabled_reason ≠ some .TooManyFailures →
        e ∈ heal_too_many_failures s.entries)
    ∧ (∀ e ∈ s.entries, e.disabled_reason = some .TooManyFailures →
        { e with disabled := false, disabled_reason := none, failure_count := 0 }
          ∈ heal_too_many_failures s.entries) := by
  refine ⟨?_, ?_, ?_, ?_⟩
  · intro h
    unfold acquire_select
    cases hfind : s.entries.find? (fun e =>
        e.id == s.current_id && e.is_available && in_group s.active_group_id e.credentials) with
    | some e => rfl
    | none =>
      have hcond : ((minById (availInGroup s.active_group_id s.entries)).isNone
          && s.entries.any (fun e =>
               e.disabled && e.disabled_reason == some .TooManyFailures)) = false := by
        rcases h with h | h
        · have hne : availInGroup s.active_group_id s.entries ≠ [] := by
            unfold availInGroup
            rcases List.any_eq_true.mp h with ⟨x, hx, hpx⟩
            intro hnil
            have hxf : x ∈ s.entries.filter (fun e =>
                e.is_available && in_group s.active_group_id e.credentials) :=
              List.mem_filter.mpr ⟨hx, by simpa using hpx⟩
            rw [hnil] at hxf
            simp at hxf
          cases hm : minById (availInGroup s.active_group_id s.entries) with
          | none => exact absurd (minById_none hm) hne
          | some b => simp
        · rw [h]
          simp
      simp only [hcond, if_false]
      unfold select_best
      split <;> rfl
  · intro hA hT
    unfold acquire_select
    cases hfind : s.entries.find? (fun e =>
        e.id == s.current_id && e.is_available && in_group s.active_group_id e.credentials) with
    | some e =>
      exfalso
      have hp := List.find?_some hfind
      have hmem := List.mem_of_find?_eq_some hfind
      simp only [Bool.and_eq_true] at hp
      have hany : s.entries.any (fun e =>
          e.is_available && in_group s.active_group_id e.credentials) = true :=
        List.any_eq_true.mpr ⟨e, hmem, by
          simp only [Bool.and_eq_true]
          exact ⟨hp.1.2, hp.2⟩⟩
      rw [hA] at hany
      exact Bool.false_ne_true hany
    | none =>
      have hfil : availInGroup s.active_group_id s.entries = [] := by
        unfold availInGroup
        rw [List.filter_eq_nil_iff]
        intro x hx hpx
        have hany : s.entries.any (fun e =>
            e.is_available && in_group s.active_group_id e.credentials) = true :=
          List.any_eq_true.mpr ⟨x, hx, by simpa using hpx⟩
        rw [hA] at hany
        exact Bool.false_ne_true hany
      have hcond : ((minById (availInGroup s.active_group_id s.entries)).isNone
          && s.entries.any (fun e =>
               e.disabled && e.disabled_reason == some .TooManyFailures)) = true := by
        rw [hfil]
        simp [minById, hT]
      simp only [hcond, if_true]
      unfold select_best
      split <;> rfl
  · intro e he hne
    unfold heal_too_many_failures
    refine List.mem_map.mpr ⟨e, he, ?_⟩
    have hb : (e.disabled_reason == some DisabledReason.TooManyFailures) = false := by
      simpa using hne
    simp [hb]
  · intro e he heq
    unfold heal_too_many_failures
    refine List.mem_map.mpr ⟨e, he, ?_⟩
    have hb : (e.disabled_reason == some DisabledReason.TooManyFailures) = true := by
      simp [heq]
    simp [hb]

/-- Witness for `self_heal_spec` on the mixed-group pool. -/
theorem self_heal_spec_witness :
    (sHealFix.entries.any (fun e =>
       e.is_available && in_group sHealFix.active_group_id e.credentials) = false
     ∧ sHealFix.entries.any (fun e =>
       e.disabled && e.disabled_reason == some .TooManyFailures) = true
     ∧ wEntry 1 "h" ∈ sHealFix.entries
     ∧ (wEntry 1 "h").disabled_reason ≠ some DisabledReason.TooManyFailures
     ∧ wEntryTMF 2 "g" ∈ sHealFix.entries
     ∧ (wEntryTMF 2 "g").disabled_reason = some DisabledReason.TooManyFailures)
    ∧ (acquire_select sHealFix).2.entries = heal_too_many_failures sHealFix.entries
    ∧ wEntry 1 "h" ∈ heal_too_many_failures sHealFix.entries
    ∧ { wEntryTMF 2 "g" with
        disabled := false
        disabled_reason := none
        failure_count := 0 } ∈ heal_too_many_failures sHealFix.entries := by
  have h := self_heal_spec sHealFix
  exact ⟨⟨by decide, by decide, by decide, by decide, by decide, by decide⟩,
    h.2.1 (by decide) (by decide),
    h.2.2.1 (wEntry 1 "h") (by decide) (by decide),
    h.2.2.2 (wEntryTMF 2 "g") (by decide) (by decide)⟩

/-! ## C1 — soundness of acquire_context -/

theorem map_id_of_preserve {l : List CredentialEntry} {f : CredentialEntry → CredentialEntry}
    (hf : ∀ e, (f e).id = e.id) : (l.map f).map (·.id) = l.map (·.id) := by
  induction l with
  | nil => rfl
  | cons a t ih => simp [hf, ih]

theorem heal_preserves_ids (l : List CredentialEntry) :
    (heal_too_many_failures l).map (·.id) = l.map (·.id) := by
  unfold heal_too_many_failures
  refine map_id_of_preserve ?_
  intro e
  split <;> rfl

theorem eq_of_mem_nodup_ids {l : List CredentialEntry}
    (hnd : (l.map (·.id)).Nodup) {x y : CredentialEntry}
    (hx : x ∈ l) (hy : y ∈ l) (hxy : x.id = y.id) : x = y := by
  induction l with
  | nil => cases hx
  | cons a t ih =>
    simp only [List.map_cons, List.nodup_cons] at hnd
    rcases List.mem_cons.mp hx with rfl | hx' <;>
      rcases List.mem_cons.mp hy with h | hy'
    · exact h.symm
    · exact absurd (hxy ▸ List.mem_map_of_mem (·.id) hy') hnd.1
    · subst h
      exact absurd (hxy ▸ List.mem_map_of_mem (·.id) hx') hnd.1
    · exact ih hnd.2 hx' hy'

/-- A successful refresh always carries an access token
(`new_credentials.access_token = Some(data.access_token)` in both refresh
functions). -/
theorem refresh_token_call_has_token {env : Env} {c v : KiroCredentials}
    (h : (refresh_token_call env c).1 = .ok v) :
    ∃ t, v.access_token = some t := by
  unfold refresh_token_call at h
  split at h
  · simp at h
  · split at h
    · unfold refresh_idc_token at h
      split at h
      · simp at h
      · split at h
        · simp at h
        · split at h
          · simp at h
          · simp only at h
            cases h
            exact ⟨_, rfl⟩
    · unfold refresh_social_token at h
      split at h
      · simp at h
      · split at h
        · simp at h
        · simp only at h
          cases h
          exact ⟨_, rfl⟩

theorem select_best_ok {s : ManagerState} {l : List CredentialEntry}
    {id : Nat} {creds : KiroCredentials} {s₁ : ManagerState}
    (h : select_best s l = (.ok (id, creds), s₁)) :
    s₁.active_group_id = s.active_group_id ∧ s₁.entries = l
    ∧ ∃ e ∈ l, e.id = id ∧ e.credentials = creds ∧ e.is_available = true
        ∧ in_group s.active_group_id e.credentials = true := by
  unfold select_best at h
  split at h
  · rename_i e hm
    simp only [Prod.mk.injEq] at h
    obtain ⟨h1, h2⟩ := h
    injection h1 with h1
    have hmem := minById_mem hm
    unfold availInGroup at hmem
    have hmem' := List.mem_filter.mp hmem
    have hpred := hmem'.2
    simp only [Bool.and_eq_true] at hpred
    injection h1 with hid hcreds
    exact ⟨by rw [← h2], by rw [← h2],
      e, hmem'.1, hid.symm ▸ rfl, hcreds.symm ▸ rfl, hpred.1, hpred.2⟩
  · simp at h

theorem acquire_select_ok {s : ManagerState} {id : Nat} {creds : KiroCredentials}
    {s₁ : ManagerState} (h : acquire_select s = (.ok (id, creds), s₁)) :
    s₁.active_group_id = s.active_group_id
    ∧ (s₁.entries.map (·.id) = s.entries.map (·.id))
    ∧ ∃ e ∈ s₁.entries, e.id = id ∧ e.credentials = creds ∧ e.is_available = true
        ∧ in_group s.active_group_id e.credentials = true := by
  unfold acquire_select at h
  split at h
  · rename_i e hfind
    simp only [Prod.mk.injEq] at h
    obtain ⟨h1, h2⟩ := h
    injection h1 with h1
    injection h1 with hid hcreds
    have hp := List.find?_some hfind
    simp only [Bool.and_eq_true] at hp
    exact ⟨by rw [← h2], by rw [← h2],
      e, h2 ▸ List.mem_of_find?_eq_some hfind, hid.symm ▸ rfl, hcreds.symm ▸ rfl,
      hp.1.2, hp.2⟩
  · have h' := select_best_ok h
    obtain ⟨hag, hent, e, he, rest⟩ := h'
    refine ⟨hag, ?_, e, hent ▸ he, rest⟩
    rw [hent]
    split
    · exact heal_preserves_ids s.entries
    · rfl

theorem mkCallContext_ok {id : Nat} {creds : KiroCredentials} {s : ManagerState}
    {n : Nat} {ctx : CallContext} {s₂ : ManagerState} {n₂ : Nat}
    (h : mkCallContext id creds s n = (.ok ctx, s₂, n₂)) :
    ctx.id = id ∧ ctx.credentials = creds ∧ s₂ = s := by
  unfold mkCallContext at h
  split at h
  · simp only [Prod.mk.injEq] at h
    obtain ⟨h1, h2, _⟩ := h
    injection h1 with h1
    exact ⟨by rw [← h1], by rw [← h1], h2.symm⟩
  · simp at h

theorem try_ensure_token_ok {env : Env} {s : ManagerState} {id : Nat}
    {creds : KiroCredentials} {ctx : CallContext} {s₂ : ManagerState} {n : Nat}
    (h : try_ensure_token env s id creds = (.ok ctx, s₂, n)) :
    ctx.id = id
    ∧ s₂.active_group_id = s.active_group_id
    ∧ (s₂.entries = s.entries
       ∨ ∃ e₀ new, s.entries.find? (fun x => x.id == id) = some e₀
           ∧ new.status = e₀.credentials.status
           ∧ new.group_id = e₀.credentials.group_id
           ∧ ctx.credentials = new
           ∧ s₂.entries = updateFirst s.entries id (fun e => { e with credentials := new })) := by
  unfold try_ensure_token at h
  split at h
  · split at h
    · simp at h
    · rename_i entry hfind
      split at h
      · split at h
        · simp at h
        · rename_i new_creds n₁ hrefresh
          split at h
          · simp at h
          · unfold logged at h
            obtain ⟨hcid, hcc, hs⟩ := mkCallContext_ok h
            refine ⟨hcid, by rw [hs]; rfl, Or.inr ⟨entry, new_creds, hfind, ?_, ?_, hcc, by rw [hs]; rfl⟩⟩
            · exact (refresh_token_call_keeps_status (by rw [hrefresh])).1
            · exact (refresh_token_call_keeps_status (by rw [hrefresh])).2
      · obtain ⟨hcid, hcc, hs⟩ := mkCallContext_ok h
        exact ⟨hcid, by rw [hs], Or.inl (by rw [hs])⟩
  · obtain ⟨hcid, hcc, hs⟩ := mkCallContext_ok h
    exact ⟨hcid, by rw [hs], Or.inl (by rw [hs])⟩

theorem try_ensure_token_err {env : Env} {s : ManagerState} {id : Nat}
    {creds : KiroCredentials} {m : String} {s₂ : ManagerState} {n : Nat}
    (h : try_ensure_token env s id creds = (.error m, s₂, n)) : s₂ = s := by
  unfold try_ensure_token at h
  split at h
  · split at h
    · simp only [Prod.mk.injEq] at h
      exact h.2.1.symm
    · rename_i entry hfind
      split at h
      · split at h
        · simp only [Prod.mk.injEq] at h
          exact h.2.1.symm
        · rename_i new_creds n₁ hrefresh
          split at h
          · simp only [Prod.mk.injEq] at h
            exact h.2.1.symm
          · unfold logged mkCallContext at h
            split at h
            · simp at h
            · rename_i hnone
              obtain ⟨t, ht⟩ := refresh_token_call_has_token
                (show (refresh_token_call env _).1 = .ok new_creds by rw [hrefresh])
              rw [ht] at hnone
              simp at hnone
      · unfold mkCallContext at h
        split at h
        · simp at h
        · simp only [Prod.mk.injEq] at h
          exact h.2.1.symm
  · unfold mkCallContext at h
    split at h
    · simp at h
    · simp only [Prod.mk.injEq] at h
      exact h.2.1.symm

theorem in_group_congr {ag : Option String} {c d : KiroCredentials}
    (h : c.group_id = d.group_id) : in_group ag c = in_group ag d := by
  unfold in_group
  cases ag <;> simp [h]

theorem switch_to_next_by_id_entries (s : ManagerState) :
    (switch_to_next_by_id s).entries = s.entries := by
  unfold switch_to_next_by_id
  split <;> rfl

theorem switch_to_next_by_id_group (s : ManagerState) :
    (switch_to_next_by_id s).active_group_id = s.active_group_id := by
  unfold switch_to_next_by_id
  split <;> rfl

theorem suspend_entry_ids (s : ManagerState) (id : Nat) :
    (suspend_entry s id).entries.map (·.id) = s.entries.map (·.id) :=
  updateFirst_ids (fun _ => rfl)

theorem suspend_entry_group (s : ManagerState) (id : Nat) :
    (suspend_entry s id).active_group_id = s.active_group_id := rfl

theorem acquire_step_ids (s₂ : ManagerState) (id : Nat) (m : String) :
    ((switch_to_next_by_id
        (if is_credential_invalid_error m then suspend_entry s₂ id else s₂)).entries.map
      (·.id)) = s₂.entries.map (·.id) := by
  rw [switch_to_next_by_id_entries]
  cases h : is_credential_invalid_error m
  · simp [h]
  · simp [h, suspend_entry_ids]

theorem acquire_step_group (s₂ : ManagerState) (id : Nat) (m : String) :
    (switch_to_next_by_id
        (if is_credential_invalid_error m then suspend_entry s₂ id else s₂)).active_group_id
      = s₂.active_group_id := by
  rw [switch_to_next_by_id_group]
  cases h : is_credential_invalid_error m
  · simp [h]
  · simp [h, suspend_entry_group]

theorem acquire_loop_ok {env : Env} {fuel : Nat} :
    ∀ {calls : Nat} {s : ManagerState} {ctx : CallContext} {s' : ManagerState}
      {n : Nat},
    (s.entries.map (·.id)).Nodup →
    acquire_loop env s fuel calls = (.ok ctx, s', n) →
    s'.active_group_id = s.active_group_id
    ∧ ∃ e ∈ s'.entries, e.id = ctx.id ∧ e.is_available = true
        ∧ in_group s'.active_group_id e.credentials = true := by
  induction fuel with
  | zero =>
    intro calls s ctx s' n _ h
    simp only [acquire_loop] at h
    simp at h
  | succ fuel ih =>
    intro calls s ctx s' n hnd h
    simp only [acquire_loop] at h
    split at h
    · simp at h
    · rename_i id credentials s₁ hsel
      obtain ⟨hag, hids, e, he, heid, hecreds, heav, hegrp⟩ := acquire_select_ok hsel
      split at h
      · rename_i ctx₂ s₂ n₂ hens
        simp only [Prod.mk.injEq, Except.ok.injEq] at h
        obtain ⟨h1, h2, -⟩ := h
        subst h1
        subst h2
        obtain ⟨hcid, hag2, hdisj⟩ := try_ensure_token_ok hens
        refine ⟨by rw [hag2, hag], ?_⟩
        rcases hdisj with hent | ⟨e₀, new, hfind, hst, hgrp, hcc, hents⟩
        · exact ⟨e, by rw [hent]; exact he, by rw [heid, hcid], heav,
            by rw [hag2, hag]; exact hegrp⟩
        · have he₀mem : e₀ ∈ s₁.entries := List.mem_of_find?_eq_some hfind
          have he₀id : e₀.id = id := by simpa using List.find?_some hfind
          have hnd₁ : (s₁.entries.map (·.id)).Nodup := by rw [hids]; exact hnd
          have hee : e₀ = e := eq_of_mem_nodup_ids hnd₁ he₀mem he
            (by rw [he₀id, heid])
          subst hee
          refine ⟨{ e₀ with credentials := new }, ?_, ?_, ?_, ?_⟩
          · rw [hents]
            exact List.mem_of_find?_eq_some (find?_updateFirst (fun _ => rfl) hfind)
          · show e₀.id = ctx₂.id
            rw [hcid, he₀id]
          · show (!e₀.disabled && new.status != "invalid") = true
            rw [hst]
            exact heav
          · show in_group s₂.active_group_id new = true
            rw [hag2, hag, in_group_congr hgrp]
            exact hegrp
      · rename_i m s₂ n₂ hens
        have hs₂ : s₂ = s₁ := try_ensure_token_err hens
        simp only [logged] at h
        have hnd' : (((switch_to_next_by_id
            (if is_credential_invalid_error m then suspend_entry s₂ id
             else s₂)).entries.map (·.id)).Nodup) := by
          rw [acquire_step_ids, hs₂, hids]
          exact hnd
        obtain ⟨hag', hex⟩ := ih hnd' h
        refine ⟨?_, hex⟩
        rw [hag', acquire_step_group, hs₂]
        exact hag

/-- C1: whenever `acquire_context` returns `Ok`, the final pool holds an
entry with the returned id that is available — neither `disabled` nor of
`status == "invalid"` — and inside the (unchanged) active group; and on an
empty pool it fails immediately with the pool-empty error, issuing zero
refresh HTTP calls.  (Entry ids are pairwise distinct in any pool built by
`manager_new` / `add_credential`, hence the `Nodup` hypothesis.) -/
theorem acquire_context_sound (env : Env) (s : ManagerState)
    (hnd : (s.entries.map (·.id)).Nodup) :
    (∀ ctx s' n, acquire_context env s = (.ok ctx, s', n) →
        s'.active_group_id = s.active_group_id
        ∧ ∃ e ∈ s'.entries, e.id = ctx.id ∧ e.is_available = true
            ∧ in_group s'.active_group_id e.credentials = true)
    ∧ (s.entries = [] →
        acquire_context env s = (.error "所有凭证均无法获取有效 Token", s, 0)) := by
  constructor
  · intro ctx s' n h
    unfold acquire_context at h
    exact acquire_loop_ok hnd h
  · intro hempty
    unfold acquire_context
    rw [hempty]
    rfl

/-- Witness for `acquire_context_sound`: the one-entry pool `wState` has
nodup ids, `acquire_context` succeeds on it, and the guarantees hold. -/
theorem acquire_context_sound_witness :
    (wState.entries.map (·.id)).Nodup
    ∧ (wState.active_group_id = wState.active_group_id
       ∧ ∃ e ∈ wState.entries, e.id = 1 ∧ e.is_available = true
           ∧ in_group wState.active_group_id e.credentials = true) :=
  ⟨by decide,
   (acquire_context_sound wEnv wState (by decide)).1
     ⟨1, wCred "default", "T"⟩ wState 0 (by decide)⟩

/-! ## The retry engine and per-credential state (C2) -/

theorem credsPreserved_refl (s : ManagerState) : CredsPreserved s s :=
  fun x hx => ⟨x, hx, rfl, rfl, fun h => h⟩

theorem credsPreserved_trans {a b c : ManagerState}
    (h₁ : CredsPreserved a b) (h₂ : CredsPreserved b c) : CredsPreserved a c := by
  intro x hx
  obtain ⟨y, hy, hid, hcr, hsus⟩ := h₂ x hx
  obtain ⟨z, hz, hid', hcr', hsus'⟩ := h₁ y hy
  exact ⟨z, hz, hid.trans hid', hcr.trans hcr', fun h => hsus' (hsus h)⟩

theorem credsPreserved_of_entries_eq {a b : ManagerState}
    (h : b.entries = a.entries) : CredsPreserved a b := by
  intro x hx
  rw [h] at hx
  exact ⟨x, hx, rfl, rfl, fun h => h⟩

theorem updateFirst_preserves {l : List CredentialEntry} {id : Nat}
    {f : CredentialEntry → CredentialEntry}
    (h₁ : ∀ e, (f e).id = e.id) (h₂ : ∀ e, (f e).credentials = e.credentials)
    (h₃ : ∀ e, (f e).disabled_reason = some .Suspended →
        e.disabled_reason = some .Suspended) :
    ∀ x ∈ updateFirst l id f, ∃ e ∈ l, x.id = e.id ∧ x.credentials = e.credentials
      ∧ (x.disabled_reason = some .Suspended → e.disabled_reason = some .Suspended) := by
  intro x hx
  rcases updateFirst_mem hx with h | ⟨e, he, -, hfe⟩
  · exact ⟨x, h, rfl, rfl, fun h => h⟩
  · subst hfe
    exact ⟨e, he, h₁ e, h₂ e, h₃ e⟩

theorem fresh_of_preserved {env : Env} {a b : ManagerState}
    (hp : CredsPreserved a b) (hf : FreshState env a) : FreshState env b := by
  intro x hx
  obtain ⟨e, he, -, hcr, -⟩ := hp x hx
  rw [hcr]
  exact hf e he

theorem bump_failure_id (e : CredentialEntry) : (bump_failure e).id = e.id := by
  unfold bump_failure
  split <;> rfl

theorem bump_failure_credentials (e : CredentialEntry) :
    (bump_failure e).credentials = e.credentials := by
  unfold bump_failure
  split <;> rfl

theorem bump_failure_not_suspended (e : CredentialEntry) :
    (bump_failure e).disabled_reason = some .Suspended →
    e.disabled_reason = some .Suspended := by
  unfold bump_failure
  split
  · intro h
    simp at h
  · intro h
    exact h

theorem report_failure_preserves (s : ManagerState) (id : Nat) :
    CredsPreserved s (report_failure s id).2 := by
  unfold report_failure
  split
  · exact credsPreserved_refl s
  · split
    · split
      · intro x hx
        exact updateFirst_preserves bump_failure_id bump_failure_credentials
          bump_failure_not_suspended x hx
      · intro x hx
        exact updateFirst_preserves bump_failure_id bump_failure_credentials
          bump_failure_not_suspended x hx
    · intro x hx
      exact updateFirst_preserves bump_failure_id bump_failure_credentials
        bump_failure_not_suspended x hx

theorem report_success_preserves (s : ManagerState) (id : Nat) :
    CredsPreserved s (report_success s id) := by
  intro x hx
  unfold report_success at hx
  exact @updateFirst_preserves s.entries id (fun e => { e with failure_count := 0 })
    (fun _ => rfl) (fun _ => rfl) (fun _ h => h) x hx

theorem heal_preserves_entries (l : List CredentialEntry) :
    ∀ x ∈ heal_too_many_failures l, ∃ e ∈ l, x.id = e.id
      ∧ x.credentials = e.credentials
      ∧ (x.disabled_reason = some .Suspended → e.disabled_reason = some .Suspended) := by
  intro x hx
  unfold heal_too_many_failures at hx
  obtain ⟨e, he, hfe⟩ := List.mem_map.mp hx
  subst hfe
  refine ⟨e, he, ?_, ?_, ?_⟩
  · split <;> rfl
  · split <;> rfl
  · split
    · intro h
      simp at h
    · exact fun h => h

theorem select_best_entries {s : ManagerState} {l : List CredentialEntry}
    {r : Except String (Nat × KiroCredentials)} {s₁ : ManagerState}
    (h : select_best s l = (r, s₁)) : s₁.entries = l := by
  unfold select_best at h
  split at h
  · simp only [Prod.mk.injEq] at h
    rw [← h.2]
  · simp only [Prod.mk.injEq] at h
    rw [← h.2]

theorem acquire_select_preserves {s : ManagerState}
    {r : Except String (Nat × KiroCredentials)} {s₁ : ManagerState}
    (h : acquire_select s = (r, s₁)) : CredsPreserved s s₁ := by
  unfold acquire_select at h
  split at h
  · simp only [Prod.mk.injEq] at h
    rw [← h.2]
    exact credsPreserved_refl s
  · have hent := select_best_entries h
    intro x hx
    rw [hent] at hx
    split at hx
    · exact heal_preserves_entries s.entries x hx
    · exact ⟨x, hx, rfl, rfl, fun h => h⟩

theorem try_ensure_token_fresh {env : Env} {s : ManagerState} {id : Nat}
    {creds : KiroCredentials}
    (h₁ : is_token_expired env creds = false)
    (h₂ : is_token_expiring_soon env creds = false) :
    try_ensure_token env s id creds = mkCallContext id creds s 0 := by
  unfold try_ensure_token
  rw [h₁, h₂]
  rfl

theorem mkCallContext_err {id : Nat} {creds : KiroCredentials} {s : ManagerState}
    {n : Nat} {m : String} {s₂ : ManagerState} {n₂ : Nat}
    (h : mkCallContext id creds s n = (.error m, s₂, n₂)) :
    m = "没有可用的 accessToken" ∧ s₂ = s := by
  unfold mkCallContext at h
  split at h
  · simp at h
  · simp only [Prod.mk.injEq] at h
    obtain ⟨h1, h2, -⟩ := h
    injection h1 with h1
    exact ⟨h1.symm, h2.symm⟩

theorem if_not_invalid {α : Type} {m : String} (a b : α)
    (hinv : is_credential_invalid_error m = false) :
    (if is_credential_invalid_error m then a else b) = b :=
  if_neg (by simp [hinv])

theorem acquire_loop_fresh {env : Env} {fuel : Nat} :
    ∀ {calls : Nat} {s : ManagerState} {r : Except String CallContext}
      {s' : ManagerState} {n : Nat},
    FreshState env s →
    acquire_loop env s fuel calls = (r, s', n) →
    CredsPreserved s s' := by
  induction fuel with
  | zero =>
    intro calls s r s' n _ h
    simp only [acquire_loop, Prod.mk.injEq] at h
    obtain ⟨-, h2, -⟩ := h
    rw [← h2]
    exact credsPreserved_refl s
  | succ fuel ih =>
    intro calls s r s' n hf h
    simp only [acquire_loop] at h
    split at h
    · rename_i m s₁ hsel
      simp only [Prod.mk.injEq] at h
      obtain ⟨-, h2, -⟩ := h
      rw [← h2]
      exact acquire_select_preserves hsel
    · rename_i id credentials s₁ hsel
      have hps₁ : CredsPreserved s s₁ := acquire_select_preserves hsel
      have hf₁ : FreshState env s₁ := fresh_of_preserved hps₁ hf
      obtain ⟨-, -, e, he, -, hecreds, -, -⟩ := acquire_select_ok hsel
      have hcf := hf₁ e he
      rw [hecreds] at hcf
      rw [try_ensure_token_fresh hcf.1 hcf.2] at h
      split at h
      · rename_i ctx₂ s₂ n₂ hmk
        obtain ⟨-, -, hs₂⟩ := mkCallContext_ok hmk
        simp only [Prod.mk.injEq] at h
        obtain ⟨-, h2, -⟩ := h
        rw [← h2, hs₂]
        exact hps₁
      · rename_i m s₂ n₂ hmk
        obtain ⟨hm, hs₂⟩ := mkCallContext_err hmk
        simp only [logged] at h
        rw [if_not_invalid _ _ (by rw [hm]; decide)] at h
        rw [hs₂] at h
        have hfsw : FreshState env (switch_to_next_by_id s₁) := by
          intro x hx
          rw [switch_to_next_by_id_entries] at hx
          exact hf₁ x hx
        exact credsPreserved_trans hps₁
          (credsPreserved_trans
            (credsPreserved_of_entries_eq (switch_to_next_by_id_entries s₁))
            (ih hfsw h))

theorem acquire_context_preserves {env : Env} {s : ManagerState}
    {r : Except String CallContext} {s' : ManagerState} {n : Nat}
    (hf : FreshState env s) (h : acquire_context env s = (r, s', n)) :
    CredsPreserved s s' := by
  unfold acquire_context at h
  exact acquire_loop_fresh hf h

theorem retry_loop_preserves {env : Env} {upstream : Nat → UpstreamOutcome}
    {remaining : Nat} :
    ∀ {s : ManagerState} {attempt : Nat} {lastError : Option String}
      {r : Except String CallContext} {s' : ManagerState},
    FreshState env s →
    retry_loop env upstream s attempt remaining lastError = (r, s') →
    CredsPreserved s s' := by
  induction remaining with
  | zero =>
    intro s attempt lastError r s' _ h
    simp only [retry_loop, Prod.mk.injEq] at h
    obtain ⟨-, h2⟩ := h
    rw [← h2]
    exact credsPreserved_refl s
  | succ remaining ih =>
    intro s attempt lastError r s' hf h
    simp only [retry_loop] at h
    split at h
    · rename_i m s₁ k hacq
      have hp₁ := acquire_context_preserves hf hacq
      exact credsPreserved_trans hp₁ (ih (fresh_of_preserved hp₁ hf) h)
    · rename_i ctx s₁ k hacq
      have hp₁ := acquire_context_preserves hf hacq
      have hf₁ := fresh_of_preserved hp₁ hf
      split at h
      · exact credsPreserved_trans hp₁ (ih hf₁ h)
      · split at h
        · split at h
          · simp only [Prod.mk.injEq] at h
            obtain ⟨-, h2⟩ := h
            rw [← h2]
            exact credsPreserved_trans hp₁ (report_failure_preserves s₁ ctx.id)
          · exact credsPreserved_trans hp₁
              (credsPreserved_trans (report_failure_preserves s₁ ctx.id)
                (ih (fresh_of_preserved (report_failure_preserves s₁ ctx.id) hf₁) h))
        · split at h
          · simp only [Prod.mk.injEq] at h
            obtain ⟨-, h2⟩ := h
            rw [← h2]
            exact credsPreserved_trans hp₁ (report_success_preserves s₁ ctx.id)
          · split at h
            · simp only [Prod.mk.injEq] at h
              obtain ⟨-, h2⟩ := h
              rw [← h2]
              exact hp₁
            · split at h
              · exact credsPreserved_trans hp₁ (ih hf₁ h)
              · split at h
                · simp only [Prod.mk.injEq] at h
                  obtain ⟨-, h2⟩ := h
                  rw [← h2]
                  exact credsPreserved_trans hp₁ (report_failure_preserves s₁ ctx.id)
                · exact credsPreserved_trans hp₁
                    (credsPreserved_trans (report_failure_preserves s₁ ctx.id)
                      (ih (fresh_of_preserved (report_failure_preserves s₁ ctx.id) hf₁) h))

/-- C2 counterexample: a 403 whose body matches the credential-invalidation
predicate does NOT hard-disable the credential.  With two healthy entries and
an upstream that answers 403 "TEMPORARILY_SUSPENDED" on the first attempt and
succeeds on the second, the retry engine returns the SAME credential id 1 and
the final pool is byte-identical to the initial one — nothing was disabled,
no reason `Suspended` was set, no status became `"invalid"`.  The hard-disable
routine `report_failure_with_error` exists but is never invoked by the retry
engine, which calls plain `report_failure` on every non-400/429 error. -/
theorem retry_no_hard_disable_cex :
    is_credential_invalid_error "403 Forbidden TEMPORARILY_SUSPENDED" = true
    ∧ cexUpstream 0 = .http 403 "403 Forbidden TEMPORARILY_SUSPENDED"
    ∧ call_api_with_retry wEnv cexUpstream s2fix
        = (.ok ⟨1, wCred "default", "T"⟩, s2fix)
    ∧ (wEntry 1 "default").disabled = false
    ∧ (wEntry 1 "default").disabled_reason = none
    ∧ (wEntry 1 "default").credentials.status = "normal" := by
  refine ⟨by decide, rfl, by decide, rfl, rfl, rfl⟩

/-- C2 (amended): on a non-400/429 upstream error the retry engine only
increments the failure counter via plain `report_failure` — regardless of the
response body.  Formally: as long as no token needs a refresh, every entry of
the pool after `call_api_with_retry` keeps the exact credentials (hence the
exact `status`) of the entry it descends from, and carries disabled-reason
`Suspended` only if that entry already did; the engine never hard-disables,
never sets `status = "invalid"`, and never persists such a change. -/
theorem retry_engine_never_suspends (env : Env) (upstream : Nat → UpstreamOutcome)
    (s : ManagerState) (r : Except String CallContext) (s' : ManagerState)
    (hf : FreshState env s) (h : call_api_with_retry env upstream s = (r, s')) :
    CredsPreserved s s' := by
  unfold call_api_with_retry at h
  exact retry_loop_preserves hf h

/-- Witness for `retry_engine_never_suspends` at the two-entry pool and the
403-then-200 upstream of the counterexample. -/
theorem retry_engine_never_suspends_witness :
    (FreshState wEnv s2fix
     ∧ call_api_with_retry wEnv cexUpstream s2fix
        = (.ok ⟨1, wCred "default", "T"⟩, s2fix))
    ∧ CredsPreserved s2fix s2fix :=
  ⟨⟨by decide, by decide⟩,
   retry_engine_never_suspends wEnv cexUpstream s2fix
     (.ok ⟨1, wCred "default", "T"⟩) s2fix (by decide) (by decide)⟩

end KiroGateway
